import Mathlib

/-!
# Bit-banged JTAG IDCODE reader (`jtag.c`)

A shallow embedding of `jtag.c`.  The program drives four sysfs GPIO lines to
walk the TAP controller of an attached chip and shift out its IDCODE.

* C `int` values are integers kept in the 32-bit two's complement range;
  `toU32` gives the bit pattern of one, its value modulo `2^32`.
* The operating system (the sysfs files under `/sys/class/gpio`, `stderr`,
  `errno`) is a parameter: a `Host σ` gives the outcome of every system call
  on a host state `σ`.  Nothing is assumed of it.
* Every call of one of the five `gpio_*` line operations is recorded, with the
  value it returned, in a log carried next to the host state.  The log is
  what statements about "the operations issued" are read from.
-/

namespace KovanJtag

/-! ## C `int` arithmetic -/

/-- Bit pattern of a C `int`: its value modulo `2^32`. -/
def toU32 (x : Int) : Nat := (x % 4294967296).toNat

/-- The C `int` (32 bits, two's complement) that carries a bit pattern. -/
def ofU32 (n : Nat) : Int :=
  if n % 4294967296 < 2147483648 then ((n % 4294967296 : Nat) : Int)
  else ((n % 4294967296 : Nat) : Int) - 4294967296

/-- Unary minus on `int`, as in `-errno`. -/
def int_neg (a : Int) : Int := ofU32 (toU32 (-a))

/-- The shift `a << i` on `int`, as two's complement machines compute it: the
bit pattern moves up and the bits above bit 31 fall off (ISO C leaves the
shift of a negative value, or of a 1 into the sign bit, undefined). -/
def int_shl (a : Int) (i : Nat) : Int := ofU32 (toU32 a * 2 ^ i)

/-- The bitwise or `a | b` on `int`. -/
def int_or (a b : Int) : Int := ofU32 (toU32 a ||| toU32 b)

/-! ## Constants and the line set -/

def TDO_GPIO : Int := 16
def TMS_GPIO : Int := 18
def TCK_GPIO : Int := 20
def TDI_GPIO : Int := 34

def GPIO_PATH : String := "/sys/class/gpio"
def EXPORT_PATH : String := GPIO_PATH ++ "/export"
def UNEXPORT_PATH : String := GPIO_PATH ++ "/unexport"

/-- The `struct jtag_state`: one GPIO number per signal role. -/
structure jtag_state where
  tdi : Int
  tms : Int
  tck : Int
  tdo : Int
  deriving DecidableEq, Repr

/-! ## The host: system calls the program makes -/

/-- Access mode passed to `open`. -/
inductive OpenFlag
  | O_RDONLY
  | O_WRONLY
  deriving DecidableEq, Repr

/-- The operating system as seen by the program, over a host state `σ`.
`sys_open` returns the file descriptor (`-1` on failure), `sys_write` the
byte count (`-1` on failure), `sys_read` the byte count and the bytes placed
in the buffer; `sys_errno` is the current value of `errno`. -/
structure Host (σ : Type) where
  sys_open : String → OpenFlag → σ → Int × σ
  sys_write : Int → String → Nat → σ → Int × σ
  sys_read : Int → Nat → σ → (Int × List Char) × σ
  sys_close : Int → σ → σ
  sys_perror : String → σ → σ
  sys_fprintf_stderr : String → σ → σ
  sys_errno : σ → Int

/-! ## The log of line operations -/

/-- A call of one of the five line operations, with its arguments. -/
inductive Call
  | gpio_export (gpio : Int)
  | gpio_unexport (gpio : Int)
  | gpio_set_direction (gpio : Int) (is_output : Int)
  | gpio_set_value (gpio : Int) (value : Int)
  | gpio_get_value (gpio : Int)
  deriving DecidableEq, Repr

/-- A call together with the `int` it returned. -/
structure Event where
  call : Call
  ret : Int
  deriving DecidableEq, Repr

/-- Host state plus the log of line operations performed so far. -/
structure World (σ : Type) where
  host : σ
  log : List Event

/-- Run the body of a line operation and append the call to the log. -/
def logged {σ : Type} (c : Call) (body : σ → Int × σ) (w : World σ) : Int × World σ :=
  ((body w.host).1, ⟨(body w.host).2, w.log ++ [⟨c, (body w.host).1⟩]⟩)

/-! ## The GPIO line operations (`jtag.c` lines 25-136) -/

/-- Body of `gpio_export_unexport(path, gpio)`. -/
def gpio_export_unexport {σ : Type} (H : Host σ) (path : String) (gpio : Int) (s : σ) :
    Int × σ :=
  let o := H.sys_open path OpenFlag.O_WRONLY s
  if o.1 = -1 then
    let s1 := H.sys_perror "Unable to find GPIO files -- /sys/class/gpio enabled?" o.2
    (int_neg (H.sys_errno s1), s1)
  else
    let str := toString gpio
    let bytes := str.length + 1
    let r := H.sys_write o.1 str bytes o.2
    if r.1 = -1 then
      let s1 := H.sys_perror "Unable to modify gpio" r.2
      let s2 := H.sys_close o.1 s1
      (int_neg (H.sys_errno s2), s2)
    else
      (0, H.sys_close o.1 r.2)

/-- The call `gpio_export(gpio)`. -/
def gpio_export {σ : Type} (H : Host σ) (gpio : Int) : World σ → Int × World σ :=
  logged (Call.gpio_export gpio) (gpio_export_unexport H EXPORT_PATH gpio)

/-- The call `gpio_unexport(gpio)`. -/
def gpio_unexport {σ : Type} (H : Host σ) (gpio : Int) : World σ → Int × World σ :=
  logged (Call.gpio_unexport gpio) (gpio_export_unexport H UNEXPORT_PATH gpio)

/-- The path `/sys/class/gpio/gpio%d/direction`. -/
def direction_path (gpio : Int) : String :=
  GPIO_PATH ++ "/gpio" ++ toString gpio ++ "/direction"

/-- The path `/sys/class/gpio/gpio%d/value`. -/
def value_path (gpio : Int) : String :=
  GPIO_PATH ++ "/gpio" ++ toString gpio ++ "/value"

/-- Body of `gpio_set_direction(gpio, is_output)`. -/
def gpio_set_direction_body {σ : Type} (H : Host σ) (gpio is_output : Int) (s : σ) :
    Int × σ :=
  let gpio_path := direction_path gpio
  let o := H.sys_open gpio_path OpenFlag.O_WRONLY s
  if o.1 = -1 then
    let s1 := H.sys_fprintf_stderr ("Direction file: [" ++ gpio_path ++ "]\n") o.2
    let s2 := H.sys_perror "Couldn't open direction file for gpio" s1
    (int_neg (H.sys_errno s2), s2)
  else
    let r := if is_output ≠ 0 then H.sys_write o.1 "out" 4 o.2
             else H.sys_write o.1 "in" 3 o.2
    if r.1 = -1 then
      let s1 := H.sys_perror "Couldn't set output direction" r.2
      let s2 := H.sys_close o.1 s1
      (int_neg (H.sys_errno s2), s2)
    else
      (0, H.sys_close o.1 r.2)

/-- The call `gpio_set_direction(gpio, is_output)`. -/
def gpio_set_direction {σ : Type} (H : Host σ) (gpio is_output : Int) :
    World σ → Int × World σ :=
  logged (Call.gpio_set_direction gpio is_output) (gpio_set_direction_body H gpio is_output)

/-- Body of `gpio_set_value(gpio, value)`. -/
def gpio_set_value_body {σ : Type} (H : Host σ) (gpio value : Int) (s : σ) : Int × σ :=
  let gpio_path := value_path gpio
  let o := H.sys_open gpio_path OpenFlag.O_WRONLY s
  if o.1 = -1 then
    let s1 := H.sys_fprintf_stderr ("Value file: [" ++ gpio_path ++ "]\n") o.2
    let s2 := H.sys_perror "Couldn't open value file for gpio" s1
    (int_neg (H.sys_errno s2), s2)
  else
    let r := if value ≠ 0 then H.sys_write o.1 "1" 2 o.2
             else H.sys_write o.1 "0" 2 o.2
    if r.1 = -1 then
      let s1 := H.sys_perror "Couldn't set output value" r.2
      let s2 := H.sys_close o.1 s1
      (int_neg (H.sys_errno s2), s2)
    else
      (0, H.sys_close o.1 r.2)

/-- The call `gpio_set_value(gpio, value)`. -/
def gpio_set_value {σ : Type} (H : Host σ) (gpio value : Int) : World σ → Int × World σ :=
  logged (Call.gpio_set_value gpio value) (gpio_set_value_body H gpio value)

/-- Body of `gpio_get_value(gpio)`.  The buffer `gpio_path` first holds the
path; a successful `read` overwrites its front with the bytes read, and the
result is whether the first byte differs from the character `0`. -/
def gpio_get_value_body {σ : Type} (H : Host σ) (gpio : Int) (s : σ) : Int × σ :=
  let gpio_path := value_path gpio
  let o := H.sys_open gpio_path OpenFlag.O_RDONLY s
  if o.1 = -1 then
    let s1 := H.sys_perror "Couldn't open value file for gpio" o.2
    (int_neg (H.sys_errno s1), s1)
  else
    let r := H.sys_read o.1 256 o.2
    if r.1.1 ≤ 0 then
      let s1 := H.sys_perror "Couldn't get input value" r.2
      let s2 := H.sys_close o.1 s1
      (int_neg (H.sys_errno s2), s2)
    else
      let buf := r.1.2 ++ (gpio_path.toList.drop r.1.2.length)
      ((if buf.head? ≠ some '0' then 1 else 0), H.sys_close o.1 r.2)

/-- The call `gpio_get_value(gpio)`. -/
def gpio_get_value {σ : Type} (H : Host σ) (gpio : Int) : World σ → Int × World σ :=
  logged (Call.gpio_get_value gpio) (gpio_get_value_body H gpio)

/-! ## The TAP protocol engine (`jtag.c` lines 139-233) -/

/-- The function `jtag_tick`: clock low, high, low; the three results are dropped. -/
def jtag_tick {σ : Type} (H : Host σ) (state : jtag_state) (w : World σ) : Int × World σ :=
  let w1 := (gpio_set_value H state.tck 0 w).2
  let w2 := (gpio_set_value H state.tck 1 w1).2
  let w3 := (gpio_set_value H state.tck 0 w2).2
  (0, w3)

/-- One turn of the loop of `jtag_reset`. -/
def jtag_reset_turn {σ : Type} (H : Host σ) (state : jtag_state) (w : World σ) (_i : Nat) :
    World σ :=
  let w1 := (gpio_set_value H state.tms 1 w).2
  (jtag_tick H state w1).2

/-- The function `jtag_reset`: `for (i=0; i<5; i++)`, then `return 0`. -/
def jtag_reset {σ : Type} (H : Host σ) (state : jtag_state) (w : World σ) : Int × World σ :=
  (0, (List.range 5).foldl (jtag_reset_turn H state) w)

/-- The function `jtag_open`; the second component is `*state` on return. -/
def jtag_open {σ : Type} (H : Host σ) (state : jtag_state) (w : World σ) :
    Int × jtag_state × World σ :=
  let w := (gpio_export H TDI_GPIO w).2
  let w := (gpio_export H TMS_GPIO w).2
  let w := (gpio_export H TCK_GPIO w).2
  let w := (gpio_export H TDO_GPIO w).2
  let w := (gpio_set_direction H TDI_GPIO 0 w).2
  let w := (gpio_set_direction H TMS_GPIO 1 w).2
  let w := (gpio_set_direction H TCK_GPIO 1 w).2
  let w := (gpio_set_direction H TDO_GPIO 1 w).2
  let w := (gpio_set_value H TDO_GPIO 0 w).2
  let w := (gpio_set_value H TMS_GPIO 0 w).2
  let w := (gpio_set_value H TCK_GPIO 0 w).2
  let state := { state with tdi := TDI_GPIO }
  let state := { state with tms := TMS_GPIO }
  let state := { state with tck := TCK_GPIO }
  let state := { state with tdo := TDO_GPIO }
  let w := (jtag_reset H state w).2
  (0, state, w)

/-- One turn of the read loop of `jtag_idcode`, on the pair `(val, world)`. -/
def jtag_idcode_turn {σ : Type} (H : Host σ) (state : jtag_state) (acc : Int × World σ)
    (i : Nat) : Int × World σ :=
  let r := gpio_get_value H state.tdi acc.2
  let val := int_or acc.1 (int_shl r.1 i)
  (val, (jtag_tick H state r.2).2)

/-- The function `jtag_idcode`. -/
def jtag_idcode {σ : Type} (H : Host σ) (state : jtag_state) (w : World σ) : Int × World σ :=
  let val : Int := 0
  let w := (jtag_reset H state w).2
  let w := (gpio_set_value H state.tms 0 w).2
  let w := (jtag_tick H state w).2
  let w := (gpio_set_value H state.tms 1 w).2
  let w := (jtag_tick H state w).2
  let w := (gpio_set_value H state.tms 0 w).2
  let w := (jtag_tick H state w).2
  let w := (gpio_set_value H state.tms 0 w).2
  let w := (jtag_tick H state w).2
  (List.range 32).foldl (jtag_idcode_turn H state) (val, w)

/-- The function `cleanup`. -/
def cleanup {σ : Type} (H : Host σ) (w : World σ) : World σ :=
  let w := (gpio_unexport H TDI_GPIO w).2
  let w := (gpio_unexport H TMS_GPIO w).2
  let w := (gpio_unexport H TCK_GPIO w).2
  (gpio_unexport H TDO_GPIO w).2

/-- The line set `jtag_open` leaves in `*state` (lines 176-179). -/
def lines : jtag_state := ⟨ TDI_GPIO, TMS_GPIO, TCK_GPIO, TDO_GPIO⟩

/-- The session `jtag_open` followed by `n` invocations of `jtag_idcode`. -/
def session {σ : Type} (H : Host σ) (state : jtag_state) (w : World σ) : Nat → World σ
  | 0 => (jtag_open H state w).2.2
  | n + 1 => (jtag_idcode H (jtag_open H state w).2.1 (session H state w n)).2

/-! ## Reading the log -/

/-- The events logged between an earlier world and a later one. -/
def since {σ : Type} (w w1 : World σ) : List Event := w1.log.drop w.log.length

/-- The calls of a list of events, results dropped. -/
def calls (evs : List Event) : List Call := evs.map Event.call

/-- The results of the reads of line `gpio`, in order. -/
def reads_of (gpio : Int) : List Event → List Int
  | [] => []
  | ⟨Call.gpio_get_value g, r⟩ :: rest =>
      if g = gpio then r :: reads_of gpio rest else reads_of gpio rest
  | _ :: rest => reads_of gpio rest

/-- The line writes among a list of calls. -/
def writes_of : List Call → List Call
  | [] => []
  | Call.gpio_set_value g v :: rest => Call.gpio_set_value g v :: writes_of rest
  | _ :: rest => writes_of rest

/-- The level of the last write to line `gpio` (`none` when never written).
A write of a nonzero `value` puts the character `1` in the value file. -/
def last_level (gpio : Int) (last : Option Bool) : List Call → Option Bool
  | [] => last
  | Call.gpio_set_value g v :: rest =>
      if g = gpio then last_level gpio (some (decide (v ≠ 0))) rest
      else last_level gpio last rest
  | _ :: rest => last_level gpio last rest

/-- A line operation succeeded, as far as the `int` it returned tells: a read
returned 0 or 1, any other call 0 (failures return `-errno`). -/
def Event.ok : Event → Bool
  | ⟨Call.gpio_get_value _, r⟩ => decide (r = 0 ∨ r = 1)
  | ⟨_, r⟩ => decide (r = 0)

/-- A clock pulse: the write triple 0, 1, 0 on line `tck`. -/
def pulse_calls (tck : Int) : List Call :=
  [Call.gpio_set_value tck 0, Call.gpio_set_value tck 1, Call.gpio_set_value tck 0]

/-- Number of clock pulses in a list of calls: the places where three
consecutive calls are the writes 0, 1, 0 to line `tck`. -/
def pulses (tck : Int) : List Call → Nat
  | [] => 0
  | a :: rest =>
      (if (a :: rest).take 3 = pulse_calls tck then 1 else 0) + pulses tck rest

/-- Positions in a list of calls at which line `gpio` is read. -/
def read_positions (gpio : Int) (tr : List Call) : List Nat :=
  (List.range tr.length).filter (fun m => decide (tr.get? m = some (Call.gpio_get_value gpio)))

/-- Position just past the `n`-th completed clock pulse (`n ≥ 1`): the length
of the shortest beginning of the list that holds `n` pulses. -/
def pulse_end (tck : Int) (tr : List Call) (n : Nat) : Option Nat :=
  (List.range (tr.length + 1)).find? (fun m => decide (pulses tck (tr.take m) = n))

/-! ## The exported-pin and direction bookkeeping -/

/-- Exported set: a successful export adds the pin, an unexport removes it. -/
def exported_step (s : List Int) (e : Event) : List Int :=
  match e.call with
  | Call.gpio_export g => if e.ret = 0 then (if g ∈ s then s else s ++ [g]) else s
  | Call.gpio_unexport g => s.filter (fun p => decide (p ≠ g))
  | _ => s

/-- The exported set after a list of events. -/
def exported_after (s : List Int) (evs : List Event) : List Int := evs.foldl exported_step s

/-- Direction of line `gpio` after a list of events: `some true` is output,
`some false` input, `none` never configured with success. -/
def direction_after (gpio : Int) (d : Option Bool) : List Event → Option Bool
  | [] => d
  | ⟨Call.gpio_set_direction g o, r⟩ :: rest =>
      if g = gpio ∧ r = 0 then direction_after gpio (some (decide (o ≠ 0))) rest
      else direction_after gpio d rest
  | _ :: rest => direction_after gpio d rest

/-! ## The TAP controller of IEEE 1149.1 -/

/-- The sixteen states of the TAP controller. -/
inductive TapState
  | TestLogicReset | RunTestIdle
  | SelectDRScan | CaptureDR | ShiftDR | Exit1DR | PauseDR | Exit2DR | UpdateDR
  | SelectIRScan | CaptureIR | ShiftIR | Exit1IR | PauseIR | Exit2IR | UpdateIR
  deriving DecidableEq, Repr

/-- The state diagram: the next state on a rising clock edge, by the level of
ModeSelect (TMS). -/
def tap_next : TapState → Bool → TapState
  | TapState.TestLogicReset, true => TapState.TestLogicReset
  | TapState.TestLogicReset, false => TapState.RunTestIdle
  | TapState.RunTestIdle, true => TapState.SelectDRScan
  | TapState.RunTestIdle, false => TapState.RunTestIdle
  | TapState.SelectDRScan, true => TapState.SelectIRScan
  | TapState.SelectDRScan, false => TapState.CaptureDR
  | TapState.CaptureDR, true => TapState.Exit1DR
  | TapState.CaptureDR, false => TapState.ShiftDR
  | TapState.ShiftDR, true => TapState.Exit1DR
  | TapState.ShiftDR, false => TapState.ShiftDR
  | TapState.Exit1DR, true => TapState.UpdateDR
  | TapState.Exit1DR, false => TapState.PauseDR
  | TapState.PauseDR, true => TapState.Exit2DR
  | TapState.PauseDR, false => TapState.PauseDR
  | TapState.Exit2DR, true => TapState.UpdateDR
  | TapState.Exit2DR, false => TapState.ShiftDR
  | TapState.UpdateDR, true => TapState.SelectDRScan
  | TapState.UpdateDR, false => TapState.RunTestIdle
  | TapState.SelectIRScan, true => TapState.TestLogicReset
  | TapState.SelectIRScan, false => TapState.CaptureIR
  | TapState.CaptureIR, true => TapState.Exit1IR
  | TapState.CaptureIR, false => TapState.ShiftIR
  | TapState.ShiftIR, true => TapState.Exit1IR
  | TapState.ShiftIR, false => TapState.ShiftIR
  | TapState.Exit1IR, true => TapState.UpdateIR
  | TapState.Exit1IR, false => TapState.PauseIR
  | TapState.PauseIR, true => TapState.Exit2IR
  | TapState.PauseIR, false => TapState.PauseIR
  | TapState.Exit2IR, true => TapState.UpdateIR
  | TapState.Exit2IR, false => TapState.ShiftIR
  | TapState.UpdateIR, true => TapState.SelectDRScan
  | TapState.UpdateIR, false => TapState.RunTestIdle

/-- A TAP controller wired to the ModeSelect and Clock lines: its state and
the levels currently on the two lines. -/
structure Probe where
  tap : TapState
  tms : Bool
  tck : Bool
  deriving DecidableEq, Repr

/-- Effect of one call on the controller: a write to ModeSelect (GPIO 18)
sets the level in force, a write to Clock (GPIO 20) that raises the line from
low to high steps the controller with that level. -/
def Probe.step (p : Probe) : Call → Probe
  | Call.gpio_set_value g v =>
      if g = TMS_GPIO then { p with tms := decide (v ≠ 0) }
      else if g = TCK_GPIO then
        { p with tck := decide (v ≠ 0),
                 tap := if p.tck = false ∧ v ≠ 0 then tap_next p.tap p.tms else p.tap }
      else p
  | _ => p

/-- The controller after a list of calls. -/
def Probe.run (p : Probe) (tr : List Call) : Probe := tr.foldl Probe.step p

/-- The check that ModeSelect is only written while Clock is low: scanning a
list of calls with the level of the most recent Clock write (`none` before
the first), every write to ModeSelect finds that level not high. -/
def tms_stable (tck_last : Option Bool) : List Call → Bool
  | [] => true
  | Call.gpio_set_value g v :: rest =>
      if g = TCK_GPIO then tms_stable (some (decide (v ≠ 0))) rest
      else if g = TMS_GPIO then decide (tck_last ≠ some true) && tms_stable tck_last rest
      else tms_stable tck_last rest
  | _ :: rest => tms_stable tck_last rest

/-! ## A scripted host (test double) -/

/-- State of the scripted host: how many `open` calls were made, which of
them fail (numbered from 0) and with which `errno`, and the first bytes the
successive successful `read` calls deliver. -/
structure Script where
  opened : Nat
  fail_open : List Nat
  fail_errno : Int
  input : List Char
  errno : Int
  deriving DecidableEq, Repr

/-- The scripted host.  Every line operation makes exactly one `open`, so the
number of an `open` is the number of the line operation. -/
def script_host : Host Script where
  sys_open := fun _ _ s =>
    if s.opened ∈ s.fail_open then
      (-1, { s with opened := s.opened + 1, errno := s.fail_errno })
    else (3, { s with opened := s.opened + 1 })
  sys_write := fun _ _ n s => ((n : Int), s)
  sys_read := fun _ _ s =>
    match s.input with
    | [] => ((0, []), s)
    | c :: rest => ((2, [c, '\n']), { s with input := rest })
  sys_close := fun _ s => s
  sys_perror := fun _ s => s
  sys_fprintf_stderr := fun _ s => s
  sys_errno := fun s => s.errno

/-- A fresh scripted world: no failure, the given input, an empty log. -/
def script_world (fail_open : List Nat) (fail_errno : Int) (input : List Char) :
    World Script :=
  ⟨⟨0, fail_open, fail_errno, input, 0⟩, []⟩

/-- The alternating input 1,0,1,0,... of 32 bytes. -/
def alternating : List Char :=
  (List.range 32).map (fun i => if i % 2 = 0 then '1' else '0')

/-! ## The attached chip as a host -/

/-- A chip with a standard TAP behind the four lines: its IDCODE, the state
of its controller, its 32-bit data register, the levels on ModeSelect
(GPIO 18), Clock (GPIO 20) and on the chip's data input (GPIO 16), and the
sysfs file open on descriptor 3, if any. -/
structure Device where
  idcode : Nat
  tap : TapState
  dr : Nat
  tms : Bool
  tck : Bool
  tdi : Bool
  file : Option String
  deriving DecidableEq, Repr

/-- The data register after a rising clock edge, by the controller state
before the edge: in Capture-DR it is loaded with the IDCODE `c`, in Shift-DR
it shifts one position, the data input entering at bit 31. -/
def dr_next (c : Nat) (tap : TapState) (dr : Nat) (tdi : Bool) : Nat :=
  match tap with
  | TapState.CaptureDR => c
  | TapState.ShiftDR => dr / 2 % 2147483648 + (if tdi then 2147483648 else 0)
  | _ => dr

/-- A rising clock edge at the chip: the data register is loaded or shifted
according to the controller state, and the controller takes its next state. -/
def Device.rising (d : Device) : Device :=
  { d with
    dr := dr_next d.idcode d.tap d.dr d.tdi
    tap := tap_next d.tap d.tms }

/-- A write of `level` to the Clock line. -/
def Device.clock (d : Device) (level : Bool) : Device :=
  if d.tck = false ∧ level = true then { d.rising with tck := true }
  else { d with tck := level }

/-- The chip behind sysfs: every call succeeds, writes to the value files of
GPIO 20, 18 and 16 set Clock, ModeSelect and the data input, and a read of
the value file of GPIO 34 presents the lowest bit of the data register. -/
def device_host : Host Device where
  sys_open := fun path _ d => (3, { d with file := some path })
  sys_write := fun _ buf n d =>
    if d.file = some (value_path TCK_GPIO) then ((n : Int), d.clock (decide (buf ≠ "0")))
    else if d.file = some (value_path TMS_GPIO) then
      ((n : Int), { d with tms := decide (buf ≠ "0") })
    else if d.file = some (value_path TDO_GPIO) then
      ((n : Int), { d with tdi := decide (buf ≠ "0") })
    else ((n : Int), d)
  sys_read := fun _ _ d =>
    if d.file = some (value_path TDI_GPIO) then
      ((2, [if d.dr % 2 = 1 then '1' else '0', '\n']), d)
    else ((0, []), d)
  sys_close := fun _ d => { d with file := none }
  sys_perror := fun _ d => d
  sys_fprintf_stderr := fun _ d => d
  sys_errno := fun _ => 0

/-- A device world with no sysfs file open. -/
def device_world (c : Nat) (tap : TapState) (dr : Nat) (tms tck tdi : Bool)
    (log : List Event) : World Device :=
  ⟨⟨c, tap, dr, tms, tck, tdi, none⟩, log⟩

/-- The value formed least-significant-bit-first by the first `n` bits. -/
def lsb_first (b : Nat → Bool) (n : Nat) : Nat :=
  ∑ i ∈ Finset.range n, (if b i then 2 ^ i else 0)

/-- The accumulator `val` of the read loop as a function of the values the
reads returned: the read of turn `i` is shifted by `i` and or-ed in. -/
def assemble_from (i : Nat) (v : Int) : List Int → Int
  | [] => v
  | r :: rs => assemble_from (i + 1) (int_or v (int_shl r i)) rs

/-- The calls of `jtag_reset`: five times ModeSelect high, then a pulse. -/
def reset_calls (st : jtag_state) : List Call :=
  (List.replicate 5 (Call.gpio_set_value st.tms 1 :: pulse_calls st.tck)).flatten

/-- The calls of the four navigation steps of `jtag_idcode`. -/
def nav_calls (st : jtag_state) : List Call :=
  (Call.gpio_set_value st.tms 0 :: pulse_calls st.tck) ++
  (Call.gpio_set_value st.tms 1 :: pulse_calls st.tck) ++
  (Call.gpio_set_value st.tms 0 :: pulse_calls st.tck) ++
  (Call.gpio_set_value st.tms 0 :: pulse_calls st.tck)

/-- The calls of `n` turns of the read loop: a read, then a pulse. -/
def shift_calls (st : jtag_state) (n : Nat) : List Call :=
  (List.replicate n (Call.gpio_get_value st.tdi :: pulse_calls st.tck)).flatten

/-- The calls of one `jtag_idcode`. -/
def idcode_calls (st : jtag_state) : List Call :=
  reset_calls st ++ nav_calls st ++ shift_calls st 32

/-- The calls of `jtag_open`. -/
def open_calls : List Call :=
  [Call.gpio_export TDI_GPIO, Call.gpio_export TMS_GPIO, Call.gpio_export TCK_GPIO,
   Call.gpio_export TDO_GPIO,
   Call.gpio_set_direction TDI_GPIO 0, Call.gpio_set_direction TMS_GPIO 1,
   Call.gpio_set_direction TCK_GPIO 1, Call.gpio_set_direction TDO_GPIO 1,
   Call.gpio_set_value TDO_GPIO 0, Call.gpio_set_value TMS_GPIO 0,
   Call.gpio_set_value TCK_GPIO 0] ++ reset_calls lines

/-- The calls of `cleanup`. -/
def cleanup_calls : List Call :=
  [Call.gpio_unexport TDI_GPIO, Call.gpio_unexport TMS_GPIO, Call.gpio_unexport TCK_GPIO,
   Call.gpio_unexport TDO_GPIO]

/-- The head of `jtag_idcode`: the reset and the four navigation steps. -/
def jtag_idcode_head {σ : Type} (H : Host σ) (state : jtag_state) (w : World σ) : World σ :=
  let w := (jtag_reset H state w).2
  let w := (gpio_set_value H state.tms 0 w).2
  let w := (jtag_tick H state w).2
  let w := (gpio_set_value H state.tms 1 w).2
  let w := (jtag_tick H state w).2
  let w := (gpio_set_value H state.tms 0 w).2
  let w := (jtag_tick H state w).2
  let w := (gpio_set_value H state.tms 0 w).2
  (jtag_tick H state w).2

/-- The pins of the export requests among a list of calls, in order. -/
def exports_of : List Call → List Int
  | [] => []
  | Call.gpio_export g :: rest => g :: exports_of rest
  | _ :: rest => exports_of rest

/-- The pins of the unexport requests among a list of calls, in order. -/
def unexports_of : List Call → List Int
  | [] => []
  | Call.gpio_unexport g :: rest => g :: unexports_of rest
  | _ :: rest => unexports_of rest

/-- The calls issued by one invocation of `jtag_idcode`. -/
def idcode_trace {σ : Type} (H : Host σ) (st : jtag_state) (w : World σ) : List Call :=
  calls (since w (jtag_idcode H st w).2)

/-- The calls issued by one invocation of `jtag_reset`. -/
def reset_trace {σ : Type} (H : Host σ) (st : jtag_state) (w : World σ) : List Call :=
  calls (since w (jtag_reset H st w).2)

/-- The later world `w1` continues the log of `w`, and the calls added are `cs`. -/
def Emits {σ : Type} (w w1 : World σ) (cs : List Call) : Prop :=
  w1.log = w.log ++ since w w1 ∧ calls (since w w1) = cs

/-! ## The log grows by appending -/

theorem since_self {σ : Type} (w : World σ) : since w w = [] := by
  simp [since]

theorem since_append {σ : Type} (w w1 : World σ) (E : List Event)
    (h : w1.log = w.log ++ E) : since w w1 = E := by
  simp [since, h]

theorem since_trans {σ : Type} (w w1 w2 : World σ)
    (h1 : w1.log = w.log ++ since w w1) (h2 : w2.log = w1.log ++ since w1 w2) :
    w2.log = w.log ++ since w w2 ∧ since w w2 = since w w1 ++ since w1 w2 := by
  have h : w2.log = w.log ++ (since w w1 ++ since w1 w2) := by
    rw [h2, h1, List.append_assoc]
  have h3 := since_append w w2 _ h
  exact ⟨by rw [h3]; exact h, h3⟩

theorem calls_append (A B : List Event) : calls (A ++ B) = calls A ++ calls B := by
  simp [calls]

theorem gpio_set_value_log {σ : Type} (H : Host σ) (g v : Int) (w : World σ) :
    (gpio_set_value H g v w).2.log
      = w.log ++ [⟨Call.gpio_set_value g v, (gpio_set_value H g v w).1⟩] := rfl

theorem gpio_get_value_log {σ : Type} (H : Host σ) (g : Int) (w : World σ) :
    (gpio_get_value H g w).2.log
      = w.log ++ [⟨Call.gpio_get_value g, (gpio_get_value H g w).1⟩] := rfl

theorem gpio_export_log {σ : Type} (H : Host σ) (g : Int) (w : World σ) :
    (gpio_export H g w).2.log = w.log ++ [⟨Call.gpio_export g, (gpio_export H g w).1⟩] := rfl

theorem gpio_unexport_log {σ : Type} (H : Host σ) (g : Int) (w : World σ) :
    (gpio_unexport H g w).2.log
      = w.log ++ [⟨Call.gpio_unexport g, (gpio_unexport H g w).1⟩] := rfl

theorem gpio_set_direction_log {σ : Type} (H : Host σ) (g o : Int) (w : World σ) :
    (gpio_set_direction H g o w).2.log
      = w.log ++ [⟨Call.gpio_set_direction g o, (gpio_set_direction H g o w).1⟩] := rfl

theorem Emits.refl {σ : Type} (w : World σ) : Emits w w [] := by
  simp [Emits, since, calls]

theorem Emits.trans {σ : Type} {w w1 w2 : World σ} {A B : List Call}
    (h1 : Emits w w1 A) (h2 : Emits w1 w2 B) : Emits w w2 (A ++ B) := by
  obtain ⟨h, e⟩ := since_trans w w1 w2 h1.1 h2.1
  exact ⟨h, by rw [e, calls_append, h1.2, h2.2]⟩

theorem Emits.of_log {σ : Type} {w w1 : World σ} (E : List Event)
    (h : w1.log = w.log ++ E) : Emits w w1 (calls E) := by
  have e := since_append w w1 E h
  exact ⟨by rw [e]; exact h, by rw [e]⟩

theorem gpio_set_value_emits {σ : Type} (H : Host σ) (g v : Int) (w : World σ) :
    Emits w (gpio_set_value H g v w).2 [Call.gpio_set_value g v] :=
  Emits.of_log _ (gpio_set_value_log H g v w)

theorem gpio_get_value_emits {σ : Type} (H : Host σ) (g : Int) (w : World σ) :
    Emits w (gpio_get_value H g w).2 [Call.gpio_get_value g] :=
  Emits.of_log _ (gpio_get_value_log H g w)

theorem gpio_export_emits {σ : Type} (H : Host σ) (g : Int) (w : World σ) :
    Emits w (gpio_export H g w).2 [Call.gpio_export g] :=
  Emits.of_log _ (gpio_export_log H g w)

theorem gpio_unexport_emits {σ : Type} (H : Host σ) (g : Int) (w : World σ) :
    Emits w (gpio_unexport H g w).2 [Call.gpio_unexport g] :=
  Emits.of_log _ (gpio_unexport_log H g w)

theorem gpio_set_direction_emits {σ : Type} (H : Host σ) (g o : Int) (w : World σ) :
    Emits w (gpio_set_direction H g o w).2 [Call.gpio_set_direction g o] :=
  Emits.of_log _ (gpio_set_direction_log H g o w)

/-- One `jtag_tick` issues the three writes of a clock pulse, whatever the
writes return. -/
theorem jtag_tick_emits {σ : Type} (H : Host σ) (st : jtag_state) (w : World σ) :
    Emits w (jtag_tick H st w).2 (pulse_calls st.tck) :=
  ((gpio_set_value_emits H st.tck 0 w).trans
    (gpio_set_value_emits H st.tck 1 _)).trans (gpio_set_value_emits H st.tck 0 _)

theorem jtag_reset_turn_emits {σ : Type} (H : Host σ) (st : jtag_state) (w : World σ)
    (i : Nat) :
    Emits w (jtag_reset_turn H st w i) (Call.gpio_set_value st.tms 1 :: pulse_calls st.tck) :=
  (gpio_set_value_emits H st.tms 1 w).trans (jtag_tick_emits H st _)

theorem flatten_replicate_succ {α : Type} (n : Nat) (l : List α) :
    (List.replicate (n + 1) l).flatten = (List.replicate n l).flatten ++ l := by
  rw [List.replicate_succ', List.flatten_append]
  simp

theorem jtag_reset_loop_emits {σ : Type} (H : Host σ) (st : jtag_state) (w : World σ)
    (n : Nat) :
    Emits w ((List.range n).foldl (jtag_reset_turn H st) w)
      (List.replicate n (Call.gpio_set_value st.tms 1 :: pulse_calls st.tck)).flatten := by
  induction n with
  | zero => exact Emits.refl w
  | succ n ih =>
    rw [List.range_succ, List.foldl_append, flatten_replicate_succ]
    exact ih.trans (jtag_reset_turn_emits H st _ n)

/-- The calls of `jtag_reset` are fixed, whatever the host does. -/
theorem jtag_reset_emits {σ : Type} (H : Host σ) (st : jtag_state) (w : World σ) :
    Emits w (jtag_reset H st w).2 (reset_calls st) :=
  jtag_reset_loop_emits H st w 5

theorem jtag_idcode_turn_emits {σ : Type} (H : Host σ) (st : jtag_state)
    (acc : Int × World σ) (i : Nat) :
    Emits acc.2 (jtag_idcode_turn H st acc i).2
      (Call.gpio_get_value st.tdi :: pulse_calls st.tck) :=
  (gpio_get_value_emits H st.tdi acc.2).trans (jtag_tick_emits H st _)

theorem jtag_idcode_loop_emits {σ : Type} (H : Host σ) (st : jtag_state)
    (acc : Int × World σ) (n : Nat) :
    Emits acc.2 ((List.range n).foldl (jtag_idcode_turn H st) acc).2 (shift_calls st n) := by
  induction n with
  | zero => exact Emits.refl acc.2
  | succ n ih =>
    rw [List.range_succ, List.foldl_append, shift_calls, flatten_replicate_succ]
    exact ih.trans (jtag_idcode_turn_emits H st _ n)

theorem jtag_idcode_eq {σ : Type} (H : Host σ) (st : jtag_state) (w : World σ) :
    jtag_idcode H st w
      = (List.range 32).foldl (jtag_idcode_turn H st) (0, jtag_idcode_head H st w) := rfl

theorem jtag_idcode_head_emits {σ : Type} (H : Host σ) (st : jtag_state) (w : World σ) :
    Emits w (jtag_idcode_head H st w) (reset_calls st ++ nav_calls st) := by
  have h := ((((((((jtag_reset_emits H st w).trans
    (gpio_set_value_emits H st.tms 0 _)).trans (jtag_tick_emits H st _)).trans
    (gpio_set_value_emits H st.tms 1 _)).trans (jtag_tick_emits H st _)).trans
    (gpio_set_value_emits H st.tms 0 _)).trans (jtag_tick_emits H st _)).trans
    (gpio_set_value_emits H st.tms 0 _)).trans (jtag_tick_emits H st _)
  simpa [nav_calls, jtag_idcode_head, List.append_assoc] using h

/-- The calls of `jtag_idcode` are fixed, whatever the host does. -/
theorem jtag_idcode_emits {σ : Type} (H : Host σ) (st : jtag_state) (w : World σ) :
    Emits w (jtag_idcode H st w).2 (idcode_calls st) := by
  rw [jtag_idcode_eq]
  exact (jtag_idcode_head_emits H st w).trans (jtag_idcode_loop_emits H st _ 32)

theorem jtag_open_state {σ : Type} (H : Host σ) (st : jtag_state) (w : World σ) :
    (jtag_open H st w).2.1 = lines := rfl

/-- The calls of `jtag_open` are fixed, whatever the host does. -/
theorem jtag_open_emits {σ : Type} (H : Host σ) (st : jtag_state) (w : World σ) :
    Emits w (jtag_open H st w).2.2 open_calls := by
  have h := (((((((((((gpio_export_emits H TDI_GPIO w).trans
    (gpio_export_emits H TMS_GPIO _)).trans (gpio_export_emits H TCK_GPIO _)).trans
    (gpio_export_emits H TDO_GPIO _)).trans (gpio_set_direction_emits H TDI_GPIO 0 _)).trans
    (gpio_set_direction_emits H TMS_GPIO 1 _)).trans
    (gpio_set_direction_emits H TCK_GPIO 1 _)).trans
    (gpio_set_direction_emits H TDO_GPIO 1 _)).trans
    (gpio_set_value_emits H TDO_GPIO 0 _)).trans
    (gpio_set_value_emits H TMS_GPIO 0 _)).trans
    (gpio_set_value_emits H TCK_GPIO 0 _)).trans (jtag_reset_emits H lines _)
  exact h

/-- The calls of `cleanup` are fixed, whatever the host does. -/
theorem cleanup_emits {σ : Type} (H : Host σ) (w : World σ) :
    Emits w (cleanup H w) cleanup_calls :=
  (((gpio_unexport_emits H TDI_GPIO w).trans (gpio_unexport_emits H TMS_GPIO _)).trans
    (gpio_unexport_emits H TCK_GPIO _)).trans (gpio_unexport_emits H TDO_GPIO _)

/-- The calls of a session: those of `jtag_open`, then `n` times those of
`jtag_idcode`. -/
theorem session_emits {σ : Type} (H : Host σ) (st : jtag_state) (w : World σ) (n : Nat) :
    Emits w (session H st w n)
      (open_calls ++ (List.replicate n (idcode_calls lines)).flatten) := by
  induction n with
  | zero => simpa [session] using jtag_open_emits H st w
  | succ n ih =>
    rw [flatten_replicate_succ, ← List.append_assoc]
    exact ih.trans (jtag_idcode_emits H _ _)

/-! ## Facts about the fixed call lists -/

theorem jtag_idcode_nav_emits {σ : Type} (H : Host σ) (st : jtag_state) (w : World σ) :
    Emits (jtag_reset H st w).2 (jtag_idcode_head H st w) (nav_calls st) := by
  have h := (((((((gpio_set_value_emits H st.tms 0 (jtag_reset H st w).2).trans
    (jtag_tick_emits H st _)).trans
    (gpio_set_value_emits H st.tms 1 _)).trans (jtag_tick_emits H st _)).trans
    (gpio_set_value_emits H st.tms 0 _)).trans (jtag_tick_emits H st _)).trans
    (gpio_set_value_emits H st.tms 0 _)).trans (jtag_tick_emits H st _)
  simpa [nav_calls, jtag_idcode_head, List.append_assoc] using h

theorem jtag_idcode_shift_emits {σ : Type} (H : Host σ) (st : jtag_state) (w : World σ) :
    Emits (jtag_idcode_head H st w) (jtag_idcode H st w).2 (shift_calls st 32) := by
  rw [jtag_idcode_eq]
  exact jtag_idcode_loop_emits H st (0, jtag_idcode_head H st w) 32

theorem writes_of_append (A B : List Call) :
    writes_of (A ++ B) = writes_of A ++ writes_of B := by
  induction A with
  | nil => rfl
  | cons a A ih => cases a <;> simp [writes_of, ih]

theorem probe_run_append (p : Probe) (A B : List Call) :
    p.run (A ++ B) = (p.run A).run B := by
  simp [Probe.run, List.foldl_append]

set_option maxRecDepth 100000 in
/-- Five pulses with ModeSelect high bring every controller state to
Test-Logic-Reset, with ModeSelect high and Clock low on the lines. -/
theorem probe_run_reset (p : Probe) :
    p.run (reset_calls lines) = ⟨TapState.TestLogicReset, true, false⟩ := by
  rcases p with ⟨tap, tms, tck⟩
  cases tap <;> cases tms <;> cases tck <;> decide

theorem last_level_append (g : Int) (l : Option Bool) (A B : List Call) :
    last_level g l (A ++ B) = last_level g (last_level g l A) B := by
  induction A generalizing l with
  | nil => rfl
  | cons a A ih =>
    cases a with
    | gpio_set_value g1 v => by_cases h : g1 = g <;> simp [last_level, h, ih]
    | _ => simp [last_level, ih]

theorem tms_stable_append (l : Option Bool) (A B : List Call) :
    tms_stable l (A ++ B) = (tms_stable l A && tms_stable (last_level TCK_GPIO l A) B) := by
  induction A generalizing l with
  | nil => simp [tms_stable, last_level]
  | cons a A ih =>
    cases a with
    | gpio_set_value g1 v =>
      by_cases h : g1 = TCK_GPIO
      · simp [tms_stable, last_level, h, ih]
      · have hne : ¬ TMS_GPIO = TCK_GPIO := by decide
        by_cases h2 : g1 = TMS_GPIO <;>
          simp [tms_stable, last_level, h, h2, hne, ih, Bool.and_assoc]
    | _ => simp [tms_stable, last_level, ih]

theorem idcode_trace_eq {σ : Type} (H : Host σ) (st : jtag_state) (w : World σ) :
    idcode_trace H st w = idcode_calls st :=
  (jtag_idcode_emits H st w).2

theorem reset_trace_eq {σ : Type} (H : Host σ) (st : jtag_state) (w : World σ) :
    reset_trace H st w = reset_calls st :=
  (jtag_reset_emits H st w).2

set_option maxRecDepth 100000 in
theorem idcode_calls_take_read :
    ∀ m ∈ read_positions TDI_GPIO (idcode_calls lines),
      (idcode_calls lines).take m
        = reset_calls lines ++ ((idcode_calls lines).take m).drop 20 := by
  decide

set_option maxRecDepth 100000 in
theorem probe_at_reads :
    ∀ m ∈ read_positions TDI_GPIO (idcode_calls lines),
      (Probe.mk TapState.TestLogicReset true false).run
          (((idcode_calls lines).take m).drop 20)
        = ⟨TapState.ShiftDR, false, false⟩ := by
  decide

set_option maxRecDepth 100000 in
theorem last_level_idcode_calls (l : Option Bool) :
    last_level TCK_GPIO l (idcode_calls lines) = some false := by
  rcases l with _ | b
  · decide
  · cases b <;> decide

set_option maxRecDepth 100000 in
theorem last_level_reset_calls (l : Option Bool) :
    last_level TCK_GPIO l (reset_calls lines) = some false := by
  rcases l with _ | b
  · decide
  · cases b <;> decide

set_option maxRecDepth 100000 in
theorem tms_stable_idcode_calls : tms_stable (some false) (idcode_calls lines) = true := by
  decide

theorem idcode_rounds_stable (n : Nat) :
    tms_stable (some false) (List.replicate n (idcode_calls lines)).flatten = true ∧
    last_level TCK_GPIO (some false) (List.replicate n (idcode_calls lines)).flatten
      = some false := by
  induction n with
  | zero => exact ⟨rfl, rfl⟩
  | succ n ih =>
    rw [flatten_replicate_succ, tms_stable_append, last_level_append, ih.1, ih.2,
      tms_stable_idcode_calls, last_level_idcode_calls]
    exact ⟨rfl, rfl⟩

/-! ## The value returned by `jtag_idcode` -/

theorem reads_of_append (g : Int) (A B : List Event) :
    reads_of g (A ++ B) = reads_of g A ++ reads_of g B := by
  induction A with
  | nil => rfl
  | cons a A ih =>
    rcases a with ⟨c, r⟩
    cases c with
    | gpio_get_value g1 => by_cases h : g1 = g <;> simp [reads_of, h, ih]
    | _ => simp [reads_of, ih]

theorem writes_of_length_le (l : List Call) : (writes_of l).length ≤ l.length := by
  induction l with
  | nil => exact Nat.le_refl _
  | cons a l ih => cases a <;> simp [writes_of] <;> omega

/-- Events whose calls are all writes hold no read. -/
theorem reads_of_eq_nil (g : Int) (E : List Event) (h : writes_of (calls E) = calls E) :
    reads_of g E = [] := by
  induction E with
  | nil => rfl
  | cons a E ih =>
    rcases a with ⟨c, r⟩
    have hlen := writes_of_length_le (calls E)
    cases c with
    | gpio_set_value g1 v =>
      simp only [calls, List.map_cons, writes_of, List.cons.injEq, true_and] at h
      simpa [reads_of] using ih h
    | _ =>
      simp only [calls, List.map_cons, writes_of] at h
      have h2 := congrArg List.length h
      simp only [calls, List.length_cons, List.length_map] at h2 hlen
      omega

theorem assemble_from_append (i : Nat) (v : Int) (rs : List Int) (r : Int) :
    assemble_from i v (rs ++ [r])
      = int_or (assemble_from i v rs) (int_shl r (i + rs.length)) := by
  induction rs generalizing i v with
  | nil => simp [assemble_from]
  | cons a rs ih =>
    show assemble_from (i + 1) (int_or v (int_shl a i)) (rs ++ [r]) = _
    rw [ih]
    simp only [assemble_from, List.length_cons]
    congr 2
    omega

/-- One turn of the read loop logs one read of the data line, and or-s its
result, shifted by the turn number, into the accumulator. -/
theorem jtag_idcode_turn_reads {σ : Type} (H : Host σ) (st : jtag_state)
    (acc : Int × World σ) (i : Nat) :
    reads_of st.tdi (since acc.2 (jtag_idcode_turn H st acc i).2)
      = [(gpio_get_value H st.tdi acc.2).1] ∧
    (jtag_idcode_turn H st acc i).1
      = int_or acc.1 (int_shl (gpio_get_value H st.tdi acc.2).1 i) := by
  have hg := gpio_get_value_log H st.tdi acc.2
  have ht := jtag_tick_emits H st (gpio_get_value H st.tdi acc.2).2
  have e1 := since_append _ _ _ hg
  have h := since_trans acc.2 (gpio_get_value H st.tdi acc.2).2
    (jtag_idcode_turn H st acc i).2 (by rw [e1]; exact hg) ht.1
  refine ⟨?_, rfl⟩
  rw [h.2, reads_of_append, e1]
  have hc : calls (since (gpio_get_value H st.tdi acc.2).2
      (jtag_idcode_turn H st acc i).2) = pulse_calls st.tck := ht.2
  have hn : reads_of st.tdi (since (gpio_get_value H st.tdi acc.2).2
      (jtag_idcode_turn H st acc i).2) = [] :=
    reads_of_eq_nil _ _ (by rw [hc]; rfl)
  rw [hn]
  simp [reads_of]

/-- After `n` turns of the read loop the accumulator is the value assembled
from the `n` reads logged. -/
theorem jtag_idcode_loop_value {σ : Type} (H : Host σ) (st : jtag_state)
    (acc : Int × World σ) (n : Nat) :
    (reads_of st.tdi
      (since acc.2 ((List.range n).foldl (jtag_idcode_turn H st) acc).2)).length = n ∧
    ((List.range n).foldl (jtag_idcode_turn H st) acc).1
      = assemble_from 0 acc.1
          (reads_of st.tdi
            (since acc.2 ((List.range n).foldl (jtag_idcode_turn H st) acc).2)) := by
  induction n with
  | zero => simp [since_self, reads_of, assemble_from]
  | succ n ih =>
    have hl := jtag_idcode_loop_emits H st acc n
    rw [List.range_succ, List.foldl_append]
    simp only [List.foldl_cons, List.foldl_nil]
    have ht := jtag_idcode_turn_emits H st ((List.range n).foldl (jtag_idcode_turn H st) acc) n
    have h := since_trans _ _ _ hl.1 ht.1
    have hr := jtag_idcode_turn_reads H st ((List.range n).foldl (jtag_idcode_turn H st) acc) n
    rw [h.2, reads_of_append, hr.1, hr.2, assemble_from_append, ih.1, ← ih.2]
    simp [ih.1]

/-- The value `jtag_idcode` returns is assembled from the 32 reads of the
data line it logged, and from nothing else. -/
theorem jtag_idcode_value {σ : Type} (H : Host σ) (st : jtag_state) (w : World σ) :
    (reads_of st.tdi (since w (jtag_idcode H st w).2)).length = 32 ∧
    (jtag_idcode H st w).1
      = assemble_from 0 0 (reads_of st.tdi (since w (jtag_idcode H st w).2)) := by
  have hh := jtag_idcode_head_emits H st w
  have hs := jtag_idcode_shift_emits H st w
  have h := since_trans _ _ _ hh.1 hs.1
  have hv := jtag_idcode_loop_value H st (0, jtag_idcode_head H st w) 32
  have hn : reads_of st.tdi (since w (jtag_idcode_head H st w)) = [] :=
    reads_of_eq_nil _ _ (by rw [hh.2]; rfl)
  rw [h.2, reads_of_append, hn, List.nil_append]
  exact hv

/-! ## Arithmetic of the accumulator -/

theorem toU32_lt (x : Int) : toU32 x < 4294967296 := by
  unfold toU32
  omega

theorem toU32_ofU32 (n : Nat) : toU32 (ofU32 n) = n % 4294967296 := by
  unfold toU32 ofU32
  split <;> omega

theorem toU32_int_or (a b : Int) : toU32 (int_or a b) = toU32 a ||| toU32 b := by
  unfold int_or
  rw [toU32_ofU32]
  apply Nat.mod_eq_of_lt
  exact Nat.or_lt_two_pow (n := 32) (toU32_lt a) (toU32_lt b)

theorem toU32_int_shl (r : Int) (i : Nat) :
    toU32 (int_shl r i) = toU32 r * 2 ^ i % 4294967296 := by
  unfold int_shl
  rw [toU32_ofU32]

theorem lsb_first_succ (b : Nat → Bool) (n : Nat) :
    lsb_first b (n + 1) = lsb_first b n + (if b n then 2 ^ n else 0) := by
  simp [lsb_first, Finset.sum_range_succ]

theorem lsb_first_lt (b : Nat → Bool) (n : Nat) : lsb_first b n < 2 ^ n := by
  induction n with
  | zero => simp [lsb_first]
  | succ n ih =>
    rw [lsb_first_succ, Nat.pow_succ]
    split <;> omega

theorem lsb_first_congr (b c : Nat → Bool) (n : Nat) (h : ∀ i < n, b i = c i) :
    lsb_first b n = lsb_first c n := by
  unfold lsb_first
  apply Finset.sum_congr rfl
  intro i hi
  rw [h i (Finset.mem_range.mp hi)]

theorem or_bit_eq_add (a n : Nat) (c : Bool) (h : a < 2 ^ n) :
    a ||| (if c then 2 ^ n else 0) = a + (if c then 2 ^ n else 0) := by
  cases c
  · simp
  · have h1 := Nat.mul_add_lt_is_or h 1
    simp only [Nat.mul_one] at h1
    simp only [if_true]
    rw [Nat.lor_comm, ← h1, Nat.add_comm]

/-- When every value read is 0 or 1, the accumulator holds the values read,
least significant bit first. -/
theorem assemble_bits (rs : List Int) (h01 : ∀ r ∈ rs, r = 0 ∨ r = 1)
    (hlen : rs.length ≤ 32) :
    toU32 (assemble_from 0 0 rs)
      = lsb_first (fun i => decide (rs.getD i 0 = 1)) rs.length := by
  induction rs using List.reverseRecOn with
  | nil => simp [assemble_from, lsb_first, toU32]
  | append_singleton rs r ih =>
    have hl : rs.length < 32 := by
      simp only [List.length_append, List.length_singleton] at hlen
      omega
    have ih1 := ih (fun x hx => h01 x (List.mem_append_left _ hx)) (by omega)
    have hr : r = 0 ∨ r = 1 := h01 r (by simp)
    have hpow : 2 ^ rs.length < 4294967296 := by
      have : (4294967296 : Nat) = 2 ^ 32 := by norm_num
      rw [this]
      exact Nat.pow_lt_pow_right (by norm_num) hl
    have hshift : toU32 r * 2 ^ rs.length % 4294967296
        = if decide (r = 1) then 2 ^ rs.length else 0 := by
      rcases hr with h | h <;> subst h
      · simp [toU32]
      · have : toU32 1 = 1 := by decide
        simp [this, Nat.mod_eq_of_lt hpow]
    have hcongr : lsb_first (fun i => decide ((rs ++ [r]).getD i 0 = 1)) rs.length
        = lsb_first (fun i => decide (rs.getD i 0 = 1)) rs.length := by
      apply lsb_first_congr
      intro i hi
      simp [List.getElem?_append_left hi]
    rw [assemble_from_append, toU32_int_or, toU32_int_shl, ih1, Nat.zero_add, hshift,
      or_bit_eq_add _ _ _ (lsb_first_lt _ _), List.length_append, List.length_singleton,
      lsb_first_succ, hcongr]
    simp

/-! ## Where the reads sit in the log -/

theorem calls_length (E : List Event) : (calls E).length = E.length := by
  simp [calls]

/-- After `n` turns of the read loop, the events logged are `4 * n`, and the
one at place `4 * i` is the `i`-th read with the value it returned. -/
theorem jtag_idcode_loop_events {σ : Type} (H : Host σ) (st : jtag_state)
    (acc : Int × World σ) (n : Nat) :
    (since acc.2 ((List.range n).foldl (jtag_idcode_turn H st) acc).2).length = 4 * n ∧
    ∀ i < n, (since acc.2 ((List.range n).foldl (jtag_idcode_turn H st) acc).2)[4 * i]?
      = some ⟨Call.gpio_get_value st.tdi,
          (reads_of st.tdi
            (since acc.2 ((List.range n).foldl (jtag_idcode_turn H st) acc).2)).getD i 0⟩ := by
  induction n with
  | zero => simp [since_self]
  | succ n ih =>
    have hl := jtag_idcode_loop_emits H st acc n
    have hv := jtag_idcode_loop_value H st acc n
    rw [List.range_succ, List.foldl_append]
    simp only [List.foldl_cons, List.foldl_nil]
    have ht := jtag_idcode_turn_emits H st ((List.range n).foldl (jtag_idcode_turn H st) acc) n
    have h := since_trans _ _ _ hl.1 ht.1
    have hr := jtag_idcode_turn_reads H st ((List.range n).foldl (jtag_idcode_turn H st) acc) n
    have hg := gpio_get_value_log H st.tdi ((List.range n).foldl (jtag_idcode_turn H st) acc).2
    have hk := jtag_tick_emits H st
      (gpio_get_value H st.tdi ((List.range n).foldl (jtag_idcode_turn H st) acc).2).2
    have e1 := since_append _ _ _ hg
    have h2 := since_trans ((List.range n).foldl (jtag_idcode_turn H st) acc).2
      (gpio_get_value H st.tdi ((List.range n).foldl (jtag_idcode_turn H st) acc).2).2
      (jtag_idcode_turn H st ((List.range n).foldl (jtag_idcode_turn H st) acc) n).2
      (by rw [e1]; exact hg) hk.1
    have hTlen : (since ((List.range n).foldl (jtag_idcode_turn H st) acc).2
        (jtag_idcode_turn H st ((List.range n).foldl (jtag_idcode_turn H st) acc) n).2).length
        = 4 := by
      rw [← calls_length, ht.2]
      rfl
    rw [h.2, reads_of_append, hr.1]
    refine ⟨by rw [List.length_append, ih.1, hTlen]; omega, ?_⟩
    intro i hi
    by_cases hlt : i < n
    · rw [List.getElem?_append_left (by rw [ih.1]; omega), ih.2 i hlt]
      congr 2
      simp [List.getD_eq_getElem?_getD, List.getElem?_append_left (show i < _ by rw [hv.1]; exact hlt)]
    · have hin : i = n := by omega
      subst hin
      rw [List.getElem?_append_right (by rw [ih.1]), ih.1, Nat.sub_self, h2.2, e1]
      simp [List.getD_eq_getElem?_getD, List.getElem?_append_right, hv.1]

theorem head_calls_length (st : jtag_state) : (reset_calls st ++ nav_calls st).length = 36 :=
  rfl

/-- In the log of one `jtag_idcode`, the event at place `36 + 4 * i` is the
`i`-th read of the data line, with the value it returned. -/
theorem jtag_idcode_read_events {σ : Type} (H : Host σ) (st : jtag_state) (w : World σ)
    (i : Nat) (hi : i < 32) :
    (since w (jtag_idcode H st w).2)[36 + 4 * i]?
      = some ⟨Call.gpio_get_value st.tdi,
          (reads_of st.tdi (since w (jtag_idcode H st w).2)).getD i 0⟩ := by
  have hh := jtag_idcode_head_emits H st w
  have hs := jtag_idcode_shift_emits H st w
  have h := since_trans _ _ _ hh.1 hs.1
  have hn : reads_of st.tdi (since w (jtag_idcode_head H st w)) = [] :=
    reads_of_eq_nil _ _ (by rw [hh.2]; rfl)
  have hlen : (since w (jtag_idcode_head H st w)).length = 36 := by
    rw [← calls_length, hh.2, head_calls_length]
  have he := (jtag_idcode_loop_events H st (0, jtag_idcode_head H st w) 32).2 i hi
  rw [h.2, reads_of_append, hn, List.nil_append,
    List.getElem?_append_right (by rw [hlen]; omega), hlen, Nat.add_sub_cancel_left]
  exact he

/-! ## Single bits of the accumulator -/

theorem assemble_from_append_list (i : Nat) (v : Int) (A B : List Int) :
    assemble_from i v (A ++ B) = assemble_from (i + A.length) (assemble_from i v A) B := by
  induction A generalizing i v with
  | nil => rfl
  | cons a A ih =>
    show assemble_from (i + 1) (int_or v (int_shl a i)) (A ++ B) = _
    rw [ih]
    simp only [assemble_from, List.length_cons]
    congr 1
    omega

/-- Reads shifted by `i` or more leave the bits below `i` as they were. -/
theorem assemble_from_low_bit (i : Nat) (v : Int) (B : List Int) (k : Nat) (hk : k < i) :
    (toU32 (assemble_from i v B)).testBit k = (toU32 v).testBit k := by
  induction B generalizing i v with
  | nil => rfl
  | cons r B ih =>
    show (toU32 (assemble_from (i + 1) (int_or v (int_shl r i)) B)).testBit k = _
    rw [ih (i + 1) _ (by omega), toU32_int_or, toU32_int_shl, Nat.testBit_or]
    have h32 : (4294967296 : Nat) = 2 ^ 32 := by norm_num
    rw [h32, Nat.testBit_mod_two_pow, Nat.mul_comm, Nat.testBit_mul_pow_two]
    have : ¬ k ≥ i := by omega
    simp [this]

theorem lsb_first_top_bit (b : Nat → Bool) (k : Nat) :
    (lsb_first b (k + 1)).testBit k = b k := by
  rw [lsb_first_succ]
  have hlt := lsb_first_lt b k
  cases hb : b k
  · simp [Nat.testBit_lt_two_pow hlt]
  · simp only [if_true]
    rw [Nat.add_comm, Nat.testBit_two_pow_add_eq, Nat.testBit_lt_two_pow hlt]
    rfl

/-- Bit `k` of the accumulator is the `k`-th value read, provided the reads
up to the `k`-th each returned 0 or 1. -/
theorem assemble_bit (rs : List Int) (k : Nat) (hk : k < 32) (hlen : k < rs.length)
    (h01 : ∀ j ≤ k, rs.getD j 0 = 0 ∨ rs.getD j 0 = 1) :
    (toU32 (assemble_from 0 0 rs)).testBit k = decide (rs.getD k 0 = 1) := by
  have hsplit : rs = rs.take (k + 1) ++ rs.drop (k + 1) := (List.take_append_drop _ _).symm
  have hl : (rs.take (k + 1)).length = k + 1 := by
    rw [List.length_take]
    omega
  have hmem : ∀ r ∈ rs.take (k + 1), r = 0 ∨ r = 1 := by
    intro r hr
    obtain ⟨j, hj⟩ := List.mem_iff_getElem?.mp hr
    have hjlt : j < k + 1 := by
      by_contra hcon
      rw [List.getElem?_take_eq_none (by omega)] at hj
      cases hj
    rw [List.getElem?_take_of_lt hjlt] at hj
    have := h01 j (by omega)
    simpa [List.getD_eq_getElem?_getD, hj] using this
  rw [hsplit, assemble_from_append_list, assemble_from_low_bit _ _ _ _ (by rw [hl]; omega),
    assemble_bits _ hmem (by rw [hl]; omega), hl, lsb_first_top_bit]
  simp [List.getD_eq_getElem?_getD, List.getElem?_take_of_succ,
    List.getElem?_append_left (show k < (rs.take (k + 1)).length by rw [hl]; omega)]

/-- When the 32 reads of one `jtag_idcode` each returned 0 or 1, the value
returned holds them least significant bit first, whatever the writes did. -/
theorem jtag_idcode_bits {σ : Type} (H : Host σ) (w : World σ)
    (h01 : ∀ i < 32, (reads_of TDI_GPIO (since w (jtag_idcode H lines w).2)).getD i 0 = 0 ∨
      (reads_of TDI_GPIO (since w (jtag_idcode H lines w).2)).getD i 0 = 1) :
    toU32 (jtag_idcode H lines w).1
      = lsb_first
          (fun i => decide ((reads_of TDI_GPIO (since w (jtag_idcode H lines w).2)).getD i 0 = 1))
          32 := by
  have hv := jtag_idcode_value H lines w
  have ht : lines.tdi = TDI_GPIO := rfl
  rw [ht] at hv
  have hmem : ∀ r ∈ reads_of TDI_GPIO (since w (jtag_idcode H lines w).2), r = 0 ∨ r = 1 := by
    intro r hr
    obtain ⟨j, hj⟩ := List.mem_iff_getElem?.mp hr
    have hjlt : j < 32 := by
      by_contra hcon
      rw [List.getElem?_eq_none (by rw [hv.1]; omega)] at hj
      cases hj
    have := h01 j hjlt
    simpa [List.getD_eq_getElem?_getD, hj] using this
  rw [hv.2, assemble_bits _ hmem (by rw [hv.1]), hv.1]

set_option maxRecDepth 100000 in
theorem idcode_calls_timing :
    (read_positions TDI_GPIO (idcode_calls lines)).length = 32 ∧
    ∀ k < 32,
      (read_positions TDI_GPIO (idcode_calls lines))[k]? = some (36 + 4 * k) ∧
      pulses TCK_GPIO ((idcode_calls lines).take (36 + 4 * k)) = 9 + k ∧
      ((idcode_calls lines).drop (36 + 4 * k + 1)).take 3 = pulse_calls TCK_GPIO ∧
      pulse_end TCK_GPIO (idcode_calls lines) (10 + k) = some (36 + 4 * k + 4) ∧
      ∀ j < 3, (idcode_calls lines)[37 + 4 * k + j]?
        = some (Call.gpio_set_value TCK_GPIO (if j = 1 then 1 else 0)) := by
  decide

/-! ## The logs of `jtag_open` and `cleanup` -/

/-- The log of `jtag_open`: eleven setup events, then those of `jtag_reset`. -/
theorem jtag_open_log {σ : Type} (H : Host σ) (st : jtag_state) (w : World σ) :
    ∃ r1 r2 r3 r4 d1 d2 d3 d4 v1 v2 v3 Er,
      since w (jtag_open H st w).2.2 =
        [⟨Call.gpio_export TDI_GPIO, r1⟩, ⟨Call.gpio_export TMS_GPIO, r2⟩,
         ⟨Call.gpio_export TCK_GPIO, r3⟩, ⟨Call.gpio_export TDO_GPIO, r4⟩,
         ⟨Call.gpio_set_direction TDI_GPIO 0, d1⟩, ⟨Call.gpio_set_direction TMS_GPIO 1, d2⟩,
         ⟨Call.gpio_set_direction TCK_GPIO 1, d3⟩, ⟨Call.gpio_set_direction TDO_GPIO 1, d4⟩,
         ⟨Call.gpio_set_value TDO_GPIO 0, v1⟩, ⟨Call.gpio_set_value TMS_GPIO 0, v2⟩,
         ⟨Call.gpio_set_value TCK_GPIO 0, v3⟩] ++ Er ∧
      calls Er = reset_calls lines := by
  let w1 := (gpio_export H TDI_GPIO w).2
  let w2 := (gpio_export H TMS_GPIO w1).2
  let w3 := (gpio_export H TCK_GPIO w2).2
  let w4 := (gpio_export H TDO_GPIO w3).2
  let w5 := (gpio_set_direction H TDI_GPIO 0 w4).2
  let w6 := (gpio_set_direction H TMS_GPIO 1 w5).2
  let w7 := (gpio_set_direction H TCK_GPIO 1 w6).2
  let w8 := (gpio_set_direction H TDO_GPIO 1 w7).2
  let w9 := (gpio_set_value H TDO_GPIO 0 w8).2
  let w10 := (gpio_set_value H TMS_GPIO 0 w9).2
  let w11 := (gpio_set_value H TCK_GPIO 0 w10).2
  have h11 : w11.log = w.log ++
      [⟨Call.gpio_export TDI_GPIO, (gpio_export H TDI_GPIO w).1⟩,
       ⟨Call.gpio_export TMS_GPIO, (gpio_export H TMS_GPIO w1).1⟩,
       ⟨Call.gpio_export TCK_GPIO, (gpio_export H TCK_GPIO w2).1⟩,
       ⟨Call.gpio_export TDO_GPIO, (gpio_export H TDO_GPIO w3).1⟩,
       ⟨Call.gpio_set_direction TDI_GPIO 0, (gpio_set_direction H TDI_GPIO 0 w4).1⟩,
       ⟨Call.gpio_set_direction TMS_GPIO 1, (gpio_set_direction H TMS_GPIO 1 w5).1⟩,
       ⟨Call.gpio_set_direction TCK_GPIO 1, (gpio_set_direction H TCK_GPIO 1 w6).1⟩,
       ⟨Call.gpio_set_direction TDO_GPIO 1, (gpio_set_direction H TDO_GPIO 1 w7).1⟩,
       ⟨Call.gpio_set_value TDO_GPIO 0, (gpio_set_value H TDO_GPIO 0 w8).1⟩,
       ⟨Call.gpio_set_value TMS_GPIO 0, (gpio_set_value H TMS_GPIO 0 w9).1⟩,
       ⟨Call.gpio_set_value TCK_GPIO 0, (gpio_set_value H TCK_GPIO 0 w10).1⟩] := by
    simp only [w11, w10, w9, w8, w7, w6, w5, w4, w3, w2, w1, gpio_set_value_log,
      gpio_set_direction_log, gpio_export_log, List.append_assoc, List.cons_append,
      List.nil_append]
  have e11 := since_append w w11 _ h11
  have hr := jtag_reset_emits H lines w11
  have h := since_trans w w11 (jtag_reset H lines w11).2 (by rw [e11]; exact h11) hr.1
  refine ⟨(gpio_export H TDI_GPIO w).1, (gpio_export H TMS_GPIO w1).1,
    (gpio_export H TCK_GPIO w2).1, (gpio_export H TDO_GPIO w3).1,
    (gpio_set_direction H TDI_GPIO 0 w4).1, (gpio_set_direction H TMS_GPIO 1 w5).1,
    (gpio_set_direction H TCK_GPIO 1 w6).1, (gpio_set_direction H TDO_GPIO 1 w7).1,
    (gpio_set_value H TDO_GPIO 0 w8).1, (gpio_set_value H TMS_GPIO 0 w9).1,
    (gpio_set_value H TCK_GPIO 0 w10).1, since w11 (jtag_reset H lines w11).2, ?_, hr.2⟩
  have hopen : (jtag_open H st w).2.2 = (jtag_reset H lines w11).2 := rfl
  rw [hopen, h.2, e11]

/-- The log of `cleanup`: four unexport events. -/
theorem cleanup_log {σ : Type} (H : Host σ) (w : World σ) :
    ∃ u1 u2 u3 u4,
      since w (cleanup H w) =
        [⟨Call.gpio_unexport TDI_GPIO, u1⟩, ⟨Call.gpio_unexport TMS_GPIO, u2⟩,
         ⟨Call.gpio_unexport TCK_GPIO, u3⟩, ⟨Call.gpio_unexport TDO_GPIO, u4⟩] := by
  refine ⟨(gpio_unexport H TDI_GPIO w).1,
    (gpio_unexport H TMS_GPIO (gpio_unexport H TDI_GPIO w).2).1,
    (gpio_unexport H TCK_GPIO (gpio_unexport H TMS_GPIO (gpio_unexport H TDI_GPIO w).2).2).1,
    (gpio_unexport H TDO_GPIO (gpio_unexport H TCK_GPIO
      (gpio_unexport H TMS_GPIO (gpio_unexport H TDI_GPIO w).2).2).2).1,
    since_append w (cleanup H w) _ ?_⟩
  simp only [cleanup, gpio_unexport_log, List.append_assoc, List.cons_append,
    List.nil_append]

theorem exported_after_append (s : List Int) (A B : List Event) :
    exported_after s (A ++ B) = exported_after (exported_after s A) B := by
  simp [exported_after, List.foldl_append]

/-- Events that are neither exports nor unexports leave the exported set. -/
theorem exported_after_inert (s : List Int) (M : List Event)
    (h1 : exports_of (calls M) = []) (h2 : unexports_of (calls M) = []) :
    exported_after s M = s := by
  induction M generalizing s with
  | nil => rfl
  | cons e M ih =>
    rcases e with ⟨c, r⟩
    cases c with
    | gpio_export g => simp [calls, exports_of] at h1
    | gpio_unexport g => simp [calls, unexports_of] at h2
    | gpio_set_direction g o =>
      exact ih s (by simpa [calls, exports_of] using h1) (by simpa [calls, unexports_of] using h2)
    | gpio_set_value g v =>
      exact ih s (by simpa [calls, exports_of] using h1) (by simpa [calls, unexports_of] using h2)
    | gpio_get_value g =>
      exact ih s (by simpa [calls, exports_of] using h1) (by simpa [calls, unexports_of] using h2)

theorem direction_after_append (g : Int) (d : Option Bool) (A B : List Event) :
    direction_after g d (A ++ B) = direction_after g (direction_after g d A) B := by
  induction A generalizing d with
  | nil => rfl
  | cons e A ih =>
    rcases e with ⟨c, r⟩
    cases c with
    | gpio_set_direction g1 o =>
      by_cases h : g1 = g ∧ r = 0 <;> simp [direction_after, h, ih]
    | _ => simp [direction_after, ih]

/-- Events that set no direction leave the directions. -/
theorem direction_after_writes (g : Int) (d : Option Bool) (M : List Event)
    (h : writes_of (calls M) = calls M) : direction_after g d M = d := by
  induction M with
  | nil => rfl
  | cons a E ih =>
    rcases a with ⟨c, r⟩
    have hlen := writes_of_length_le (calls E)
    cases c with
    | gpio_set_value g1 v =>
      simp only [calls, List.map_cons, writes_of, List.cons.injEq, true_and] at h
      simpa [direction_after] using ih h
    | _ =>
      simp only [calls, List.map_cons, writes_of] at h
      have h2 := congrArg List.length h
      simp only [calls, List.length_cons, List.length_map] at h2 hlen
      omega

/-! ## The attached chip -/

theorem value_path_tms_ne_tck : value_path TMS_GPIO ≠ value_path TCK_GPIO := by decide

theorem device_set_tms (c : Nat) (tap : TapState) (dr : Nat) (tms tck tdi : Bool)
    (log : List Event) (v : Int) :
    gpio_set_value device_host TMS_GPIO v (device_world c tap dr tms tck tdi log)
      = (0, device_world c tap dr (decide (v ≠ 0)) tck tdi
          (log ++ [⟨Call.gpio_set_value TMS_GPIO v, 0⟩])) := by
  by_cases hv : v = 0 <;>
    simp [gpio_set_value, logged, gpio_set_value_body, device_host, device_world, hv,
      value_path_tms_ne_tck]

theorem device_set_tck (c : Nat) (tap : TapState) (dr : Nat) (tms tck tdi : Bool)
    (log : List Event) (v : Int) :
    gpio_set_value device_host TCK_GPIO v (device_world c tap dr tms tck tdi log)
      = (0, ⟨{ (Device.clock ⟨c, tap, dr, tms, tck, tdi, none⟩ (decide (v ≠ 0))) with
                file := none },
          log ++ [⟨Call.gpio_set_value TCK_GPIO v, 0⟩]⟩) := by
  cases tck <;> by_cases hv : v = 0 <;>
    simp [gpio_set_value, logged, gpio_set_value_body, device_host, device_world, hv,
      Device.clock, Device.rising]

theorem device_tick (c : Nat) (tap : TapState) (dr : Nat) (tms tck tdi : Bool)
    (log : List Event) :
    jtag_tick device_host lines (device_world c tap dr tms tck tdi log)
      = (0, device_world c (tap_next tap tms) (dr_next c tap dr tdi) tms false tdi
          (log ++ [⟨Call.gpio_set_value TCK_GPIO 0, 0⟩, ⟨Call.gpio_set_value TCK_GPIO 1, 0⟩,
            ⟨Call.gpio_set_value TCK_GPIO 0, 0⟩])) := by
  have ht : lines.tck = TCK_GPIO := rfl
  simp only [jtag_tick, ht]
  rw [device_set_tck]
  cases tck <;> cases tap <;>
    simp [Device.clock, Device.rising, device_world, dr_next, gpio_set_value, logged,
      gpio_set_value_body, device_host]

theorem device_get (c : Nat) (tap : TapState) (dr : Nat) (tms tck tdi : Bool)
    (log : List Event) :
    gpio_get_value device_host TDI_GPIO (device_world c tap dr tms tck tdi log)
      = ((if dr % 2 = 1 then 1 else 0),
          device_world c tap dr tms tck tdi
            (log ++ [⟨Call.gpio_get_value TDI_GPIO, (if dr % 2 = 1 then 1 else 0)⟩])) := by
  by_cases h : dr % 2 = 1 <;>
    simp [gpio_get_value, logged, gpio_get_value_body, device_host, device_world, h]

theorem device_head (c : Nat) (tap : TapState) (dr : Nat) (tms tck tdi : Bool)
    (log : List Event) :
    jtag_idcode_head device_host lines (device_world c tap dr tms tck tdi log)
      = device_world c TapState.ShiftDR c false false tdi
          (log ++ (reset_calls lines ++ nav_calls lines).map (fun x => ⟨x, 0⟩)) := by
  have ht : lines.tms = TMS_GPIO := rfl
  have hr : List.range 5 = [0, 1, 2, 3, 4] := by decide
  simp only [jtag_idcode_head, jtag_reset, jtag_reset_turn, hr, List.foldl_cons,
    List.foldl_nil, ht, device_set_tms, device_tick]
  cases tap <;>
    simp [tap_next, dr_next, reset_calls, nav_calls, pulse_calls, lines, device_world]

theorem shift_register_step (c dr n : Nat) (hn : n < 32)
    (h : dr % 2 ^ (32 - n) = c / 2 ^ n) (t : Bool) :
    (dr / 2 % 2147483648 + (if t then 2147483648 else 0)) % 2 ^ (32 - (n + 1))
      = c / 2 ^ (n + 1) := by
  have h31 : (2147483648 : Nat) = 2 ^ (32 - (n + 1)) * 2 ^ n := by
    rw [← Nat.pow_add]
    have : 32 - (n + 1) + n = 31 := by omega
    rw [this]
  have hdvd : 2 ^ (32 - (n + 1)) ∣ 2147483648 := ⟨2 ^ n, h31⟩
  have hs : 2 ^ (32 - n) = 2 * 2 ^ (32 - (n + 1)) := by
    rw [← Nat.pow_succ']
    congr 1
    omega
  have ht : (if t then 2147483648 else 0) % 2 ^ (32 - (n + 1)) = 0 := by
    cases t
    · simp
    · exact Nat.mod_eq_zero_of_dvd hdvd
  rw [Nat.add_mod, ht, Nat.add_zero, Nat.mod_mod, Nat.mod_mod_of_dvd _ hdvd,
    ← Nat.mod_mul_right_div_self, ← hs, h, Nat.div_div_eq_div_mul, ← Nat.pow_succ]

theorem accumulator_step (c dr n : Nat) (v : Int) (hn : n < 32)
    (hv : toU32 v = c % 2 ^ n) (h : dr % 2 ^ (32 - n) = c / 2 ^ n) :
    toU32 (int_or v (int_shl (if dr % 2 = 1 then 1 else 0) n)) = c % 2 ^ (n + 1) := by
  have hpow : 2 ^ n < 4294967296 := by
    have : (4294967296 : Nat) = 2 ^ 32 := by norm_num
    rw [this]
    exact Nat.pow_lt_pow_right (by norm_num) hn
  have hbit : dr % 2 = c / 2 ^ n % 2 := by
    rw [← h]
    have hd : 2 ∣ 2 ^ (32 - n) := by
      have : 32 - n = (32 - n - 1) + 1 := by omega
      rw [this, Nat.pow_succ]
      exact Nat.dvd_mul_left _ _
    exact (Nat.mod_mod_of_dvd dr hd).symm
  have hshift : toU32 (if dr % 2 = 1 then 1 else 0) * 2 ^ n % 4294967296
      = if decide (dr % 2 = 1) then 2 ^ n else 0 := by
    by_cases hb : dr % 2 = 1
    · have : toU32 1 = 1 := by decide
      simp [hb, this, Nat.mod_eq_of_lt hpow]
    · simp [hb, toU32]
  rw [toU32_int_or, toU32_int_shl, hv, hshift,
    or_bit_eq_add _ _ _ (Nat.mod_lt _ (Nat.two_pow_pos n)), Nat.mod_pow_succ, ← hbit]
  by_cases hb : dr % 2 = 1
  · simp [hb]
  · have h0 : dr % 2 = 0 := by omega
    simp [h0]

/-- The read loop against the chip: after `n` turns the accumulator holds the
low `n` bits of the IDCODE and the data register its remaining bits. -/
theorem device_loop (c : Nat) (hc : c < 4294967296) (tdi : Bool) (log : List Event)
    (n : Nat) (hn : n ≤ 32) :
    ∃ v dr E,
      (List.range n).foldl (jtag_idcode_turn device_host lines)
          (0, device_world c TapState.ShiftDR c false false tdi log)
        = (v, device_world c TapState.ShiftDR dr false false tdi (log ++ E)) ∧
      toU32 v = c % 2 ^ n ∧ dr % 2 ^ (32 - n) = c / 2 ^ n ∧ E.all Event.ok = true := by
  induction n with
  | zero =>
    refine ⟨0, c, [], by simp, by simp [toU32, Nat.mod_one], ?_, rfl⟩
    simpa using Nat.mod_eq_of_lt hc
  | succ n ih =>
    obtain ⟨v, dr, E, hfold, hv, hdr, hE⟩ := ih (by omega)
    have ht : lines.tdi = TDI_GPIO := rfl
    refine ⟨int_or v (int_shl (if dr % 2 = 1 then 1 else 0) n),
      dr_next c TapState.ShiftDR dr tdi,
      E ++ [⟨Call.gpio_get_value TDI_GPIO, (if dr % 2 = 1 then 1 else 0)⟩,
        ⟨Call.gpio_set_value TCK_GPIO 0, 0⟩, ⟨Call.gpio_set_value TCK_GPIO 1, 0⟩,
        ⟨Call.gpio_set_value TCK_GPIO 0, 0⟩], ?_,
      accumulator_step c dr n v (by omega) hv hdr,
      shift_register_step c dr n (by omega) hdr tdi, ?_⟩
    · rw [List.range_succ, List.foldl_append, hfold]
      simp only [List.foldl_cons, List.foldl_nil, jtag_idcode_turn, ht, device_get,
        device_tick, tap_next, List.append_assoc, List.cons_append, List.nil_append]
    · rw [List.all_append, hE]
      by_cases hb : dr % 2 = 1 <;> simp [Event.ok, hb]

/-! ## The claims -/

/-- C1: against a chip with a standard TAP whose 32-bit data register is
loaded with its IDCODE `c` in Capture-DR, shifts one position per clock pulse
in Shift-DR and shows its lowest bit on the sampled line, `jtag_idcode`
returns exactly `c` as a 32-bit value, for every `c` below `2^32`, every
initial controller state, register contents and line levels; every line
operation of the run succeeds. -/
theorem C1_idcode_capture_end_to_end (c : Nat) (hc : c < 4294967296) (tap : TapState)
    (dr : Nat) (tms tck tdi : Bool) (log : List Event) :
    toU32 (jtag_idcode device_host lines (device_world c tap dr tms tck tdi log)).1 = c ∧
    (since (device_world c tap dr tms tck tdi log)
      (jtag_idcode device_host lines (device_world c tap dr tms tck tdi log)).2).all Event.ok
      = true := by
  obtain ⟨v, dr1, E, hfold, hv, _, hE⟩ := device_loop c hc tdi
    (log ++ (reset_calls lines ++ nav_calls lines).map (fun x => ⟨x, 0⟩)) 32 (Nat.le_refl _)
  rw [jtag_idcode_eq, device_head, hfold]
  refine ⟨by rw [hv]; exact Nat.mod_eq_of_lt hc, ?_⟩
  have hlog : (device_world c TapState.ShiftDR dr1 false false tdi
      (log ++ (reset_calls lines ++ nav_calls lines).map (fun x => ⟨x, 0⟩) ++ E)).log
      = (device_world c tap dr tms tck tdi log).log
        ++ ((reset_calls lines ++ nav_calls lines).map (fun x => ⟨x, 0⟩) ++ E) := by
    simp [device_world]
  rw [since_append _ _ _ hlog, List.all_append, hE]
  decide

/-- C1 at a concrete input: IDCODE 305441741 (0x1234abcd), the controller
starting in Pause-IR with Clock and ModeSelect high. -/
theorem C1_idcode_capture_witness :
    toU32 (jtag_idcode device_host lines
      (device_world 305441741 TapState.PauseIR 77 true true true [])).1 = 305441741 :=
  (C1_idcode_capture_end_to_end 305441741 (by decide) TapState.PauseIR 77 true true true
    []).1


set_option maxRecDepth 100000 in
/-- C5: `jtag_reset` writes ModeSelect=1 before each of exactly five clock
pulses (its calls are five times: ModeSelect 1, Clock 0, Clock 1, Clock 0,
whatever the host does), and from every one of the 16 controller states, with
any levels on the two lines beforehand, the controller stepped along these
calls is in Test-Logic-Reset when `jtag_reset` returns. -/
theorem C5_reset_self_synchronising {σ : Type} (H : Host σ) (w : World σ) (p : Probe) :
    reset_trace H lines w
      = (List.replicate 5 [Call.gpio_set_value TMS_GPIO 1, Call.gpio_set_value TCK_GPIO 0,
          Call.gpio_set_value TCK_GPIO 1, Call.gpio_set_value TCK_GPIO 0]).flatten ∧
    pulses TCK_GPIO (reset_trace H lines w) = 5 ∧
    (p.run (reset_trace H lines w)).tap = TapState.TestLogicReset := by
  rw [reset_trace_eq]
  refine ⟨by decide, by decide, ?_⟩
  rw [probe_run_reset]

set_option maxRecDepth 100000 in
/-- C6: for every initial controller state (and any initial line levels), the
controller stepped along the calls of `jtag_idcode` is in Test-Logic-Reset
when pulse 5 completes, Run-Test/Idle after pulse 6, Select-DR-Scan after
pulse 7, Capture-DR after pulse 8, Shift-DR after pulse 9; there are 32 reads
of the data line, at each of them the controller is in Shift-DR with
ModeSelect low, and no call after pulse 9 writes ModeSelect. -/
theorem C6_navigation_walks_tap {σ : Type} (H : Host σ) (w : World σ) (p : Probe) :
    (∃ m, pulse_end TCK_GPIO (idcode_trace H lines w) 5 = some m ∧
      (p.run ((idcode_trace H lines w).take m)).tap = TapState.TestLogicReset) ∧
    (∃ m, pulse_end TCK_GPIO (idcode_trace H lines w) 6 = some m ∧
      (p.run ((idcode_trace H lines w).take m)).tap = TapState.RunTestIdle) ∧
    (∃ m, pulse_end TCK_GPIO (idcode_trace H lines w) 7 = some m ∧
      (p.run ((idcode_trace H lines w).take m)).tap = TapState.SelectDRScan) ∧
    (∃ m, pulse_end TCK_GPIO (idcode_trace H lines w) 8 = some m ∧
      (p.run ((idcode_trace H lines w).take m)).tap = TapState.CaptureDR) ∧
    (∃ m, pulse_end TCK_GPIO (idcode_trace H lines w) 9 = some m ∧
      (p.run ((idcode_trace H lines w).take m)).tap = TapState.ShiftDR ∧
      ∀ c ∈ (idcode_trace H lines w).drop m, ∀ v, c ≠ Call.gpio_set_value TMS_GPIO v) ∧
    (read_positions TDI_GPIO (idcode_trace H lines w)).length = 32 ∧
    (∀ m ∈ read_positions TDI_GPIO (idcode_trace H lines w),
      (p.run ((idcode_trace H lines w).take m)).tap = TapState.ShiftDR ∧
      (p.run ((idcode_trace H lines w).take m)).tms = false) := by
  rw [idcode_trace_eq]
  have split : ∀ m ∈ [20, 24, 28, 32, 36],
      (idcode_calls lines).take m
        = reset_calls lines ++ ((idcode_calls lines).take m).drop 20 := by decide
  refine ⟨⟨20, by decide, ?_⟩, ⟨24, by decide, ?_⟩, ⟨28, by decide, ?_⟩,
    ⟨32, by decide, ?_⟩, ⟨36, by decide, ?_, ?_⟩, by decide, ?_⟩
  · rw [split 20 (by decide), probe_run_append, probe_run_reset]; decide
  · rw [split 24 (by decide), probe_run_append, probe_run_reset]; decide
  · rw [split 28 (by decide), probe_run_append, probe_run_reset]; decide
  · rw [split 32 (by decide), probe_run_append, probe_run_reset]; decide
  · rw [split 36 (by decide), probe_run_append, probe_run_reset]; decide
  · intro c hc v hv
    subst hv
    revert hc
    have h : ∀ c ∈ (idcode_calls lines).drop 36,
        c = Call.gpio_get_value TDI_GPIO ∨ c = Call.gpio_set_value TCK_GPIO 0 ∨
        c = Call.gpio_set_value TCK_GPIO 1 := by decide
    intro hc
    rcases h _ hc with h1 | h1 | h1
    · cases h1
    · injection h1 with h2 _
      exact absurd h2 (by decide)
    · injection h1 with h2 _
      exact absurd h2 (by decide)
  · intro m hm
    rw [idcode_calls_take_read m hm, probe_run_append, probe_run_reset,
      probe_at_reads m hm]
    exact ⟨rfl, rfl⟩

set_option maxRecDepth 100000 in
/-- C4 (as stated, refuted): on the scripted host with no failure, one
invocation of `jtag_idcode` issues 41 clock pulses, not 40. -/
theorem C4_counterexample :
    pulses TCK_GPIO (idcode_trace script_host lines (script_world [] 0 alternating)) = 41 ∧
    pulses TCK_GPIO (idcode_trace script_host lines (script_world [] 0 alternating)) ≠ 40 := by
  rw [idcode_trace_eq]
  decide

set_option maxRecDepth 100000 in
/-- C4 (amended): for every host, every prior state and every outcome of the
line operations, one invocation of `jtag_idcode` issues exactly 41 clock
pulses (write triples 0,1,0 on GPIO 20, counted among all calls or among the
writes alone): 5 in the reset, 4 in the navigation, 32 in the read loop,
these three parts making up the whole invocation; and a
second consecutive invocation issues the same calls, hence the same sequence
of line writes, as the first. -/
theorem C4_fixed_pulse_count {σ : Type} (H : Host σ) (w : World σ) :
    pulses TCK_GPIO (idcode_trace H lines w) = 41 ∧
    pulses TCK_GPIO (writes_of (idcode_trace H lines w)) = 41 ∧
    pulses TCK_GPIO (reset_trace H lines w) = 5 ∧
    pulses TCK_GPIO
      (calls (since (jtag_reset H lines w).2 (jtag_idcode_head H lines w))) = 4 ∧
    pulses TCK_GPIO
      (calls (since (jtag_idcode_head H lines w) (jtag_idcode H lines w).2)) = 32 ∧
    idcode_trace H lines w
      = reset_trace H lines w
        ++ calls (since (jtag_reset H lines w).2 (jtag_idcode_head H lines w))
        ++ calls (since (jtag_idcode_head H lines w) (jtag_idcode H lines w).2) ∧
    idcode_trace H lines (jtag_idcode H lines w).2 = idcode_trace H lines w ∧
    writes_of (idcode_trace H lines (jtag_idcode H lines w).2)
      = writes_of (idcode_trace H lines w) := by
  rw [idcode_trace_eq, idcode_trace_eq, reset_trace_eq, (jtag_idcode_nav_emits H lines w).2,
    (jtag_idcode_shift_emits H lines w).2]
  refine ⟨by decide, by decide, by decide, by decide, by decide, rfl, rfl, rfl⟩

set_option maxRecDepth 100000 in
/-- C10: in the calls of `jtag_open` followed by any number `n` of
`jtag_idcode` invocations, every write to ModeSelect (GPIO 18) finds the most
recent Clock write, if any, to be 0, and the last Clock write is 0; and each
of `jtag_tick`, `jtag_reset`, `jtag_open`, `jtag_idcode` returns with the last
Clock write being 0, whatever it was before. -/
theorem C10_modeselect_stable_across_clock_edges {σ : Type} (H : Host σ)
    (st : jtag_state) (w : World σ) (n : Nat) (l : Option Bool) :
    tms_stable none (calls (since w (session H st w n))) = true ∧
    last_level TCK_GPIO none (calls (since w (session H st w n))) = some false ∧
    last_level TCK_GPIO l (calls (since w (jtag_tick H lines w).2)) = some false ∧
    last_level TCK_GPIO l (reset_trace H lines w) = some false ∧
    last_level TCK_GPIO l (calls (since w (jtag_open H st w).2.2)) = some false ∧
    last_level TCK_GPIO l (idcode_trace H lines w) = some false := by
  have hopen : tms_stable none open_calls = true ∧
      last_level TCK_GPIO none open_calls = some false := by decide
  rw [(session_emits H st w n).2, (jtag_tick_emits H lines w).2, reset_trace_eq,
    (jtag_open_emits H st w).2, idcode_trace_eq, tms_stable_append, last_level_append,
    hopen.1, hopen.2, (idcode_rounds_stable n).1, (idcode_rounds_stable n).2]
  refine ⟨rfl, rfl, ?_, last_level_reset_calls l, ?_, last_level_idcode_calls l⟩
  · rcases l with _ | b
    · decide
    · cases b <;> decide
  · rw [open_calls, last_level_append]
    exact last_level_reset_calls _

/-- C2: for every sequence of 32 bits `b 0 .. b 31`, if the 32 reads of the
sampled data line (GPIO 34) logged during `jtag_idcode` returned them (1 for a
set bit, 0 otherwise), then `jtag_idcode` returns, as a 32-bit value, the sum
over `i` of `b i * 2^i`; this on every host and whatever the writes return. -/
theorem C2_lsb_first_assembly {σ : Type} (H : Host σ) (w : World σ) (b : Nat → Bool)
    (h : reads_of TDI_GPIO (since w (jtag_idcode H lines w).2)
      = (List.range 32).map (fun i => if b i then 1 else 0)) :
    toU32 (jtag_idcode H lines w).1 = lsb_first b 32 := by
  have hv := (jtag_idcode_value H lines w).2
  have ht : lines.tdi = TDI_GPIO := rfl
  rw [ht, h] at hv
  rw [hv, assemble_bits _ (by
    intro r hr
    simp only [List.mem_map, List.mem_range] at hr
    obtain ⟨i, _, rfl⟩ := hr
    cases b i <;> simp) (by simp)]
  simp only [List.length_map, List.length_range]
  apply lsb_first_congr
  intro i hi
  simp only [List.getD_eq_getElem?_getD, List.getElem?_map, List.getElem?_range hi,
    Option.map_some', Option.getD_some]
  cases b i <;> simp

set_option maxRecDepth 1000000 in
/-- C2 at a concrete input: on the scripted host delivering the alternating
bits 1,0,1,0,..., `jtag_idcode` returns 1431655765, that is 0x55555555. -/
theorem C2_alternating_witness :
    toU32 (jtag_idcode script_host lines (script_world [] 0 alternating)).1 = 1431655765 :=
  (C2_lsb_first_assembly script_host (script_world [] 0 alternating)
    (fun i => decide (i % 2 = 0)) (by decide)).trans (by decide)

set_option maxRecDepth 1000000 in
/-- C3 (as stated, refuted): on the scripted host, let the first write of
shift tick 0 (event 37, Clock low) fail with `errno` 5 while every other line
operation succeeds.  `jtag_idcode` returns 1431655765 (0x55555555), a
non-negative value, the very value it returns when no operation fails: no
error reaches the caller. -/
theorem C3_counterexample :
    (since (script_world [37] 5 alternating)
      (jtag_idcode script_host lines (script_world [37] 5 alternating)).2)[37]?
      = some ⟨Call.gpio_set_value TCK_GPIO 0, -5⟩ ∧
    ((since (script_world [37] 5 alternating)
      (jtag_idcode script_host lines (script_world [37] 5 alternating)).2).eraseIdx 37).all
        Event.ok = true ∧
    (jtag_idcode script_host lines (script_world [37] 5 alternating)).1 = 1431655765 ∧
    (jtag_idcode script_host lines (script_world [] 0 alternating)).1 = 1431655765 := by
  decide

/-- C3 (amended): for every `k` in 0..31 and each of the three writes
(`j` in 0..2) of the `k`-th shift tick, which are Clock writes right after
the `k`-th read, if that write fails and every other line operation succeeds,
`jtag_idcode` returns no error: the nonzero result of the failed write stays
in the log only, and the value returned is the ordinary code value holding
the 32 values read, each 0 or 1, least significant bit first. -/
theorem C3_write_failure_not_surfaced {σ : Type} (H : Host σ) (w : World σ) (k j : Nat)
    (hk : k < 32) (hj : j < 3)
    (hfail : ∃ e, (since w (jtag_idcode H lines w).2)[37 + 4 * k + j]? = some e ∧
      e.ok = false)
    (hrest : ((since w (jtag_idcode H lines w).2).eraseIdx (37 + 4 * k + j)).all Event.ok
      = true) :
    (read_positions TDI_GPIO (idcode_trace H lines w))[k]? = some (36 + 4 * k) ∧
    (idcode_trace H lines w)[37 + 4 * k + j]?
      = some (Call.gpio_set_value TCK_GPIO (if j = 1 then 1 else 0)) ∧
    (∃ r, (since w (jtag_idcode H lines w).2)[37 + 4 * k + j]?
        = some ⟨Call.gpio_set_value TCK_GPIO (if j = 1 then 1 else 0), r⟩ ∧ r ≠ 0) ∧
    (∀ i < 32, (reads_of TDI_GPIO (since w (jtag_idcode H lines w).2)).getD i 0 = 0 ∨
      (reads_of TDI_GPIO (since w (jtag_idcode H lines w).2)).getD i 0 = 1) ∧
    toU32 (jtag_idcode H lines w).1
      = lsb_first
          (fun i => decide ((reads_of TDI_GPIO (since w (jtag_idcode H lines w).2)).getD i 0 = 1))
          32 := by
  have h01 : ∀ i < 32,
      (reads_of TDI_GPIO (since w (jtag_idcode H lines w).2)).getD i 0 = 0 ∨
      (reads_of TDI_GPIO (since w (jtag_idcode H lines w).2)).getD i 0 = 1 := by
    intro i hi
    have he := jtag_idcode_read_events H lines w i hi
    have hmem : (⟨Call.gpio_get_value lines.tdi,
        (reads_of lines.tdi (since w (jtag_idcode H lines w).2)).getD i 0⟩ : Event)
        ∈ (since w (jtag_idcode H lines w).2).eraseIdx (37 + 4 * k + j) :=
      List.mem_eraseIdx_iff_getElem?.mpr ⟨36 + 4 * i, by omega, he⟩
    have hok := List.all_eq_true.mp hrest _ hmem
    simpa [Event.ok] using hok
  have hcall : (idcode_trace H lines w)[37 + 4 * k + j]?
      = some (Call.gpio_set_value TCK_GPIO (if j = 1 then 1 else 0)) := by
    rw [idcode_trace_eq]
    exact (idcode_calls_timing.2 k hk).2.2.2.2 j hj
  have hfailed : ∃ r, (since w (jtag_idcode H lines w).2)[37 + 4 * k + j]?
      = some ⟨Call.gpio_set_value TCK_GPIO (if j = 1 then 1 else 0), r⟩ ∧ r ≠ 0 := by
    obtain ⟨e, he, hbad⟩ := hfail
    rcases e with ⟨c, r⟩
    have hc : c = Call.gpio_set_value TCK_GPIO (if j = 1 then 1 else 0) := by
      have h1 := hcall
      simp only [idcode_trace, calls, List.getElem?_map, he, Option.map_some',
        Option.some.injEq] at h1
      exact h1
    subst hc
    refine ⟨r, he, ?_⟩
    intro hr
    subst hr
    simp [Event.ok] at hbad
  refine ⟨?_, hcall, hfailed, h01, jtag_idcode_bits H w h01⟩
  rw [idcode_trace_eq]
  exact (idcode_calls_timing.2 k hk).1

set_option maxRecDepth 1000000 in
/-- C3 (amended) at a concrete input: the scripted host on which the first
write of shift tick 0 fails; the value returned is 1431655765. -/
theorem C3_write_failure_witness :
    toU32 (jtag_idcode script_host lines (script_world [37] 5 alternating)).1
      = 1431655765 :=
  (C3_write_failure_not_surfaced script_host (script_world [37] 5 alternating) 0 0
    (by decide) (by decide) ⟨⟨Call.gpio_set_value TCK_GPIO 0, -5⟩, by decide⟩
    (by decide)).2.2.2.2.trans (by decide)

set_option maxRecDepth 1000000 in
/-- C7 (as stated, refuted): on the scripted host, let read 0 fail (its
`open` fails with `errno` 2, so `gpio_get_value` returns -2).  Read 2, at
place 44 of the log, succeeds and returns 0, yet bit 2 of the value
`jtag_idcode` returns is 1. -/
theorem C7_counterexample :
    (since (script_world [36] 2 alternating)
      (jtag_idcode script_host lines (script_world [36] 2 alternating)).2)[36]?
      = some ⟨Call.gpio_get_value TDI_GPIO, -2⟩ ∧
    (read_positions TDI_GPIO
      (idcode_trace script_host lines (script_world [36] 2 alternating)))[2]? = some 44 ∧
    (since (script_world [36] 2 alternating)
      (jtag_idcode script_host lines (script_world [36] 2 alternating)).2)[44]?
      = some ⟨Call.gpio_get_value TDI_GPIO, 0⟩ ∧
    (toU32 (jtag_idcode script_host lines (script_world [36] 2 alternating)).1).testBit 2
      = true := by
  decide

/-- C7 (amended): the calls of one `jtag_idcode` hold exactly 32 reads of the
data line; for every `k` in 0..31 the `k`-th read comes after exactly `9 + k`
completed clock pulses, the three calls after it are pulse `10 + k`, and the
event logged there is that read with the value it returned; and when the
reads 0..`k` each succeeded (returned 0 or 1), bit `k` of the value returned
is the value of the `k`-th read. -/
theorem C7_sample_timing {σ : Type} (H : Host σ) (w : World σ) (k : Nat) (hk : k < 32) :
    (read_positions TDI_GPIO (idcode_trace H lines w)).length = 32 ∧
    ∃ m, (read_positions TDI_GPIO (idcode_trace H lines w))[k]? = some m ∧
      pulses TCK_GPIO ((idcode_trace H lines w).take m) = 9 + k ∧
      ((idcode_trace H lines w).drop (m + 1)).take 3 = pulse_calls TCK_GPIO ∧
      pulse_end TCK_GPIO (idcode_trace H lines w) (10 + k) = some (m + 4) ∧
      (since w (jtag_idcode H lines w).2)[m]?
        = some ⟨Call.gpio_get_value TDI_GPIO,
            (reads_of TDI_GPIO (since w (jtag_idcode H lines w).2)).getD k 0⟩ ∧
      ((∀ j ≤ k, (reads_of TDI_GPIO (since w (jtag_idcode H lines w).2)).getD j 0 = 0 ∨
          (reads_of TDI_GPIO (since w (jtag_idcode H lines w).2)).getD j 0 = 1) →
        (toU32 (jtag_idcode H lines w).1).testBit k
          = decide ((reads_of TDI_GPIO (since w (jtag_idcode H lines w).2)).getD k 0 = 1)) := by
  have ht := idcode_calls_timing.2 k hk
  have hv := jtag_idcode_value H lines w
  have htdi : lines.tdi = TDI_GPIO := rfl
  rw [htdi] at hv
  rw [idcode_trace_eq]
  refine ⟨idcode_calls_timing.1, 36 + 4 * k, ht.1, ht.2.1, ht.2.2.1, ht.2.2.2.1,
    jtag_idcode_read_events H lines w k hk, ?_⟩
  intro h01
  rw [hv.2]
  exact assemble_bit _ k hk (by rw [hv.1]; exact hk) h01

set_option maxRecDepth 1000000 in
/-- C7 (amended) at a concrete input: the last read, `k = 31`, on the scripted
host delivering the alternating bits. -/
theorem C7_sample_timing_witness :
    pulses TCK_GPIO
      ((idcode_trace script_host lines (script_world [] 0 alternating)).take 160) = 40 ∧
    (toU32 (jtag_idcode script_host lines (script_world [] 0 alternating)).1).testBit 31
      = false := by
  obtain ⟨_, m, hm, hp, _, _, _, hbit⟩ :=
    C7_sample_timing script_host (script_world [] 0 alternating) 31 (by decide)
  have h160 : m = 160 := by
    rw [idcode_trace_eq] at hm
    have h2 := (idcode_calls_timing.2 31 (by decide)).1
    rw [h2] at hm
    exact (Option.some.inj hm).symm
  subst h160
  exact ⟨hp, (hbit (by decide)).trans (by decide)⟩

set_option maxRecDepth 100000 in
/-- C8: `jtag_open` followed immediately by `cleanup` issues exactly one export
request for each of GPIO 34, 18, 20, 16 and exactly one unexport request for
each of the same four, whatever the line operations return; with a successful
export adding the pin to the exported set and an unexport removing it, the
set, empty before, is empty afterwards, and from any set `s0` none of the
four pins is left in it. -/
theorem C8_balanced_acquisition {σ : Type} (H : Host σ) (st : jtag_state) (w : World σ)
    (s0 : List Int) :
    exports_of (calls (since w (cleanup H (jtag_open H st w).2.2))) = [34, 18, 20, 16] ∧
    unexports_of (calls (since w (cleanup H (jtag_open H st w).2.2))) = [34, 18, 20, 16] ∧
    exported_after [] (since w (cleanup H (jtag_open H st w).2.2)) = [] ∧
    (∀ p ∈ exported_after s0 (since w (cleanup H (jtag_open H st w).2.2)),
      p ≠ 34 ∧ p ≠ 18 ∧ p ≠ 20 ∧ p ≠ 16) := by
  have hoc := (jtag_open_emits H st w).trans (cleanup_emits H (jtag_open H st w).2.2)
  obtain ⟨r1, r2, r3, r4, d1, d2, d3, d4, v1, v2, v3, Er, ho, hEr⟩ := jtag_open_log H st w
  obtain ⟨u1, u2, u3, u4, hc⟩ := cleanup_log H (jtag_open H st w).2.2
  have h := since_trans w _ _ (jtag_open_emits H st w).1
    (cleanup_emits H (jtag_open H st w).2.2).1
  have hin1 : exports_of (calls Er) = [] := by rw [hEr]; decide
  have hin2 : unexports_of (calls Er) = [] := by rw [hEr]; decide
  refine ⟨by rw [hoc.2]; decide, by rw [hoc.2]; decide, ?_, ?_⟩
  · rw [h.2, ho, hc, exported_after_append, exported_after_append,
      exported_after_inert _ Er hin1 hin2]
    by_cases h1 : r1 = 0 <;> by_cases h2 : r2 = 0 <;> by_cases h3 : r3 = 0 <;>
      by_cases h4 : r4 = 0 <;>
      simp [exported_after, exported_step, h1, h2, h3, h4, TDI_GPIO, TMS_GPIO, TCK_GPIO,
        TDO_GPIO]
  · intro p hp
    rw [h.2, hc, exported_after_append] at hp
    simp only [exported_after, exported_step, List.foldl_cons, List.foldl_nil,
      List.mem_filter, decide_eq_true_eq, TDI_GPIO, TMS_GPIO, TCK_GPIO, TDO_GPIO] at hp
    exact ⟨hp.1.1.1.2, hp.1.1.2, hp.1.2, hp.2⟩

set_option maxRecDepth 1000000 in
/-- C9 (as stated, refuted): on the scripted host with every line operation
succeeding, when `jtag_open` returns the last level written to ModeSelect
(GPIO 18) is 1, not 0; the last level written to Clock is 0. -/
theorem C9_counterexample :
    (since (script_world [] 0 []) (jtag_open script_host ⟨0, 0, 0, 0⟩
      (script_world [] 0 [])).2.2).all Event.ok = true ∧
    last_level TMS_GPIO none (calls (since (script_world [] 0 [])
      (jtag_open script_host ⟨0, 0, 0, 0⟩ (script_world [] 0 [])).2.2)) = some true ∧
    last_level TCK_GPIO none (calls (since (script_world [] 0 [])
      (jtag_open script_host ⟨0, 0, 0, 0⟩ (script_world [] 0 [])).2.2)) = some false := by
  decide

set_option maxRecDepth 100000 in
/-- C9 (amended): when `jtag_open` returns with every line operation having
succeeded, the four lines are exported (the exported set, empty before, is
34, 18, 20, 16), GPIO 34 is configured as input and GPIO 18, 20, 16 as
outputs, `*state` holds the four lines, the last level written to the data
output (GPIO 16) is 0 and to Clock (GPIO 20) is 0, and the last level written
to ModeSelect (GPIO 18) is 1, left by the closing `jtag_reset`. -/
theorem C9_lines_after_open {σ : Type} (H : Host σ) (st : jtag_state) (w : World σ)
    (hok : (since w (jtag_open H st w).2.2).all Event.ok = true) :
    exported_after [] (since w (jtag_open H st w).2.2) = [34, 18, 20, 16] ∧
    direction_after 34 none (since w (jtag_open H st w).2.2) = some false ∧
    direction_after 18 none (since w (jtag_open H st w).2.2) = some true ∧
    direction_after 20 none (since w (jtag_open H st w).2.2) = some true ∧
    direction_after 16 none (since w (jtag_open H st w).2.2) = some true ∧
    (jtag_open H st w).2.1 = ⟨34, 18, 20, 16⟩ ∧
    last_level 16 none (calls (since w (jtag_open H st w).2.2)) = some false ∧
    last_level 20 none (calls (since w (jtag_open H st w).2.2)) = some false ∧
    last_level 18 none (calls (since w (jtag_open H st w).2.2)) = some true := by
  have hoc := jtag_open_emits H st w
  obtain ⟨r1, r2, r3, r4, d1, d2, d3, d4, v1, v2, v3, Er, ho, hEr⟩ := jtag_open_log H st w
  have hin1 : exports_of (calls Er) = [] := by rw [hEr]; decide
  have hin2 : unexports_of (calls Er) = [] := by rw [hEr]; decide
  have hw : writes_of (calls Er) = calls Er := by rw [hEr]; decide
  rw [ho] at hok
  simp only [List.all_append, List.all_cons, Event.ok, Bool.and_eq_true, decide_eq_true_eq]
    at hok
  obtain ⟨⟨h1, h2, h3, h4, h5, h6, h7, h8, _⟩, _⟩ := hok
  subst h1 h2 h3 h4 h5 h6 h7 h8
  refine ⟨?_, ?_, ?_, ?_, ?_, rfl, by rw [hoc.2]; decide, by rw [hoc.2]; decide,
    by rw [hoc.2]; decide⟩
  · rw [ho, exported_after_append, exported_after_inert _ Er hin1 hin2]
    rfl
  · rw [ho, direction_after_append, direction_after_writes _ _ Er hw]; rfl
  · rw [ho, direction_after_append, direction_after_writes _ _ Er hw]; rfl
  · rw [ho, direction_after_append, direction_after_writes _ _ Er hw]; rfl
  · rw [ho, direction_after_append, direction_after_writes _ _ Er hw]; rfl

set_option maxRecDepth 1000000 in
/-- C9 (amended) at a concrete input: the scripted host with no failure. -/
theorem C9_lines_after_open_witness :
    last_level 18 none (calls (since (script_world [] 0 [])
      (jtag_open script_host ⟨0, 0, 0, 0⟩ (script_world [] 0 [])).2.2)) = some true :=
  (C9_lines_after_open script_host ⟨0, 0, 0, 0⟩ (script_world [] 0 []) (by decide)).2.2.2.2.2.2.2.2

end KovanJtag
